import Mathlib

/-!
Verification of the semantic front-end (binder and checker) of the
easy-typescript-compiler repository, as a shallow embedding in Lean 4.

The source is a TypeScript program built around mutable, mutually referential
objects (AST nodes, symbols, scope tables, types).  The embedding makes every
mutation explicit:

* AST nodes become inductive values; each node keeps the `pos` field the parser
  gives it, and node identity (JavaScript pointer identity) is represented by
  `pos` for nodes and by the unique monotonically allocated `id` for types
  (`typeCount++` in the source guarantees distinct allocations carry distinct
  ids, so pointer equality coincides with id equality on the states the
  program actually builds).
* The mutable stores (the symbol objects, the per-scope tables, the
  `declaration.symbol` and `node.parent` back-references written by the
  binder, the diagnostics sink, the type-id counter) become fields of an
  explicit state `St` threaded by a state monad `M`.
* The source's unbounded recursion (which can genuinely diverge, e.g. on a
  self-referential declaration) is made total with an explicit fuel argument:
  every function of the recursive families pattern-matches its fuel, yields
  `Outcome.timeout` at fuel zero and passes the predecessor to every callee.
  `Outcome.fatal` models a thrown `Error` (including the TypeError JavaScript
  raises when a property of `undefined` is read).
* Values the source leaves `undefined` at runtime (a missing inferred type
  argument, the return type of a body with no `return` statement) are modelled
  with `Option`: `OTy := Option Ty` is "a `Type` or `undefined`".

The `boundDecls` field of `St` is a ghost field: it records, in order, every
`declaration.symbol = symbol` assignment (the parser's pre-created symbols and
each `declareSymbol` call) together with the index of the assigned symbol.  It
changes no behaviour and exists so that invariants about "every declaration
the binder processed" can be stated.
-/

/-- An identifier node: `{ kind: SyntaxKind.Identifier, text, pos }`. -/
structure Ident where
  pos : Nat
  text : String

/-- A type-parameter declaration `{ kind: SyntaxKind.TypeParameter, name, pos }`. -/
structure TyParam where
  pos : Nat
  name : Ident

mutual

/-- Statements: `Var | TypeAlias | ExpressionStatement | Return` (parser/type.ts). -/
inductive Stmt where
  | var (pos : Nat) (name : Ident) (typename : Option TyNode) (initializer : Expr)
  | typeAlias (pos : Nat) (name : Ident) (typename : TyNode)
  | exprStmt (pos : Nat) (expression : Expr)
  | ret (pos : Nat) (expression : Expr)

/-- Expressions: `Identifier | NumericLiteral | StringLiteral | Assignment |
Object | Function | Call` (parser/type.ts). -/
inductive Expr where
  | ident (pos : Nat) (text : String)
  | num (pos : Nat) (value : Int)
  | strE (pos : Nat) (value : String)
  | assign (pos : Nat) (name : Ident) (value : Expr)
  | objE (pos : Nat) (properties : List PropA)
  | funcE (pos : Nat) (name : Option Ident) (typeParameters : Option (List TyParam))
      (parameters : List Param) (typename : Option TyNode) (body : List Stmt)
  | call (pos : Nat) (expression : Expr) (typeArguments : Option (List TyNode))
      (arguments : List Expr)

/-- A property assignment `{ name: initializer }` inside an object literal. -/
inductive PropA where
  | mk (pos : Nat) (name : Ident) (initializer : Expr)

/-- Type nodes: `ObjectLiteralType | Identifier | SignatureDeclaration`. -/
inductive TyNode where
  | identT (pos : Nat) (text : String)
  | olt (pos : Nat) (properties : List PropD)
  | signatureT (pos : Nat) (typeParameters : Option (List TyParam))
      (parameters : List Param) (typename : TyNode)

/-- A property declaration `name: typename` inside an object literal type. -/
inductive PropD where
  | mk (pos : Nat) (name : Ident) (typename : Option TyNode)

/-- A parameter declaration `name: typename`. -/
inductive Param where
  | mk (pos : Nat) (name : Ident) (typename : Option TyNode)

end

/-- The root node: `{ kind: SyntaxKind.Module, statements, locals, pos: 0 }`. -/
structure ModuleNode where
  statements : List Stmt

/-- The `Declaration` union of parser/type.ts: `Var | TypeAlias |
ObjectLiteralType | Object | Parameter | TypeParameter | PropertyAssignment |
PropertyDeclaration | Function | SignatureDeclaration`.  A `Decl` value is a
reference to the corresponding AST node (it carries the node's payload, and
node identity is its `pos`). -/
inductive Decl where
  | varD (pos : Nat) (name : Ident) (typename : Option TyNode) (initializer : Expr)
  | typeAliasD (pos : Nat) (name : Ident) (typename : TyNode)
  | objD (pos : Nat) (properties : List PropA)
  | oltD (pos : Nat) (properties : List PropD)
  | propAssignD (p : PropA)
  | propDeclD (p : PropD)
  | paramD (p : Param)
  | typeParamD (tp : TyParam)
  | funcD (pos : Nat) (name : Option Ident) (typeParameters : Option (List TyParam))
      (parameters : List Param) (typename : Option TyNode) (body : List Stmt)
  | signatureD (pos : Nat) (typeParameters : Option (List TyParam))
      (parameters : List Param) (typename : TyNode)

def PropA.pos : PropA → Nat
  | .mk p _ _ => p

def PropA.name : PropA → Ident
  | .mk _ n _ => n

def PropA.initializer : PropA → Expr
  | .mk _ _ i => i

def PropD.pos : PropD → Nat
  | .mk p _ _ => p

def PropD.name : PropD → Ident
  | .mk _ n _ => n

def PropD.typename : PropD → Option TyNode
  | .mk _ _ t => t

def Param.pos : Param → Nat
  | .mk p _ _ => p

def Param.name : Param → Ident
  | .mk _ n _ => n

def Param.typename : Param → Option TyNode
  | .mk _ _ t => t

def Stmt.pos : Stmt → Nat
  | .var p _ _ _ => p
  | .typeAlias p _ _ => p
  | .exprStmt p _ => p
  | .ret p _ => p

def Expr.pos : Expr → Nat
  | .ident p _ => p
  | .num p _ => p
  | .strE p _ => p
  | .assign p _ _ => p
  | .objE p _ => p
  | .funcE p _ _ _ _ _ => p
  | .call p _ _ _ => p

def TyNode.pos : TyNode → Nat
  | .identT p _ => p
  | .olt p _ => p
  | .signatureT p _ _ _ => p

def Decl.pos : Decl → Nat
  | .varD p _ _ _ => p
  | .typeAliasD p _ _ => p
  | .objD p _ => p
  | .oltD p _ => p
  | .propAssignD p => p.pos
  | .propDeclD p => p.pos
  | .paramD p => p.pos
  | .typeParamD tp => tp.pos
  | .funcD p _ _ _ _ _ => p
  | .signatureD p _ _ _ => p

/-- `enum Meaning { Value, Type }` of parser/type.ts. -/
inductive Meaning where
  | value
  | typeM
deriving DecidableEq

/-- binder: `getMeaning(declaration)` — `Value` iff the declaration's kind is in
`valueDeclarations = {Var, Object, PropertyAssignment, PropertyDeclaration,
Parameter}`, otherwise `Type`. -/
def getMeaning : Decl → Meaning
  | .varD .. => .value
  | .objD .. => .value
  | .propAssignD _ => .value
  | .propDeclD _ => .value
  | .paramD _ => .value
  | _ => .typeM

mutual

/-- The checker's `Type` union: `Primitive(id) | Object{id, members} |
Function{id, signature} | TypeVariable{id, name}`.  A members table maps a
property name to a symbol index into `St.symbols`. -/
inductive Ty where
  | primitive (id : Nat)
  | objectT (id : Nat) (members : List (String × Nat))
  | funcT (id : Nat) (signature : Sig)
  | typeVariable (id : Nat) (name : String)

/-- `Signature = { typeParameters?, parameters, returnType, target?, mapper? }`.
Parameters and type parameters are symbol indices.  `returnType` is an
`Option Ty` because at runtime the source can build a signature whose
`returnType` is `undefined` (a body without `return` and no annotation, or a
type variable substituted by a missing inferred type argument). -/
inductive Sig where
  | mk (typeParameters : Option (List Nat)) (parameters : List Nat)
      (returnType : Option Ty) (target : Option Sig) (mapper : Option Mapper)

/-- `Mapper = { sources: TypeVariable[], targets: Type[] }`; both arrays can
hold `undefined` at runtime (`as TypeVariable[]` casts away the option). -/
inductive Mapper where
  | mk (sources : List (Option Ty)) (targets : List (Option Ty))

end

/-- "A `Type` or the JavaScript value `undefined`". -/
abbrev OTy := Option Ty

def Sig.typeParameters : Sig → Option (List Nat)
  | .mk tps _ _ _ _ => tps

def Sig.parameters : Sig → List Nat
  | .mk _ ps _ _ _ => ps

def Sig.returnType : Sig → OTy
  | .mk _ _ r _ _ => r

def Mapper.sources : Mapper → List OTy
  | .mk s _ => s

def Mapper.targets : Mapper → List OTy
  | .mk _ t => t

/-- The four canonical primitives are allocated at module load with
`typeCount++`, so their ids are 0..3. -/
def stringType : Ty := .primitive 0

def numberType : Ty := .primitive 1

def errorType : Ty := .primitive 2

def anyType : Ty := .primitive 3

/-- The unique allocation id of a type: because `typeCount++` gives every
allocated type a fresh id, JavaScript pointer equality (`===`) between types
the program builds coincides with equality of these ids. -/
def tyId : Ty → Nat
  | .primitive i => i
  | .objectT i _ => i
  | .funcT i _ => i
  | .typeVariable i _ => i

/-- Pointer equality (`===`) on "a type or undefined": `undefined === undefined`
is true, `undefined === t` is false, and two types are the same object exactly
when their allocation ids agree. -/
def otyIdEq : OTy → OTy → Bool
  | none, none => true
  | some s, some t => tyId s == tyId t
  | _, _ => false

/-- A symbol object: `{ declarations, valueDeclaration, valueType?, typeType? }`,
with `members` for object symbols (ObjectSymbol) and `target`/`mapper` for
instantiated symbols (InstantiatedSymbol).  `target` is the index of the
target symbol. -/
structure SymData where
  declarations : List Decl
  valueDeclaration : Option Decl
  valueType : OTy := none
  typeType : OTy := none
  members : Option (List (String × Nat)) := none
  target : Option Nat := none
  mapper : Option Mapper := none

/-- Which scope-owning node kind sits at a position: Module, Function and
Signature nodes own a `locals` table; Object and ObjectLiteralType nodes
expose `symbol.members`. -/
inductive ScopeKind where
  | localsScope
  | membersScope
deriving DecidableEq

/-- The program state: every mutable structure of the source made explicit.
`symbols` is the arena of all symbol objects (a symbol reference is an index);
`typeCount` the type-id counter; `errors` the diagnostics sink (src/error.ts:
a Map from position to the first `{pos, message}` recorded there, in insertion
order); `declSym` the `declaration.symbol` back-references (keyed by node
position); `locals` the `locals` table of each Module/Function/Signature node
(keyed by node position); `parents` the `node.parent` back-references written
by `setParents` (child position to parent position); `scopes` the kind of each
scope-owning node (written when the parser allocates the node's tables);
`boundDecls` the ghost log of `declaration.symbol` assignments. -/
structure St where
  symbols : List SymData
  typeCount : Nat
  errors : List (Nat × String)
  declSym : List (Nat × Nat)
  locals : List (Nat × List (String × Nat))
  parents : List (Nat × Nat)
  scopes : List (Nat × ScopeKind)
  boundDecls : List (Decl × Nat)

/-- The outcome of running a piece of the program: a result with the state it
left behind, a thrown `Error` (or TypeError), or fuel exhaustion — the
marker under which genuine divergence of the source shows up as "times out at
every fuel". -/
inductive Outcome (α : Type) where
  | ok (a : α) (st : St)
  | fatal (msg : String)
  | timeout

/-- The state-and-failure monad every effectful source function lives in. -/
def M (α : Type) : Type := St → Outcome α

instance : Monad M where
  pure a := fun st => .ok a st
  bind x f := fun st =>
    match x st with
    | .ok a st2 => f a st2
    | .fatal msg => .fatal msg
    | .timeout => .timeout

def fatalM {α : Type} (msg : String) : M α := fun _ => .fatal msg

def outOfFuel {α : Type} : M α := fun _ => .timeout

def getM : M St := fun st => .ok st st

def setM (st : St) : M Unit := fun _ => .ok () st

def modifyM (f : St → St) : M Unit := fun st => .ok () (f st)

/-- Association-list lookup keyed by `Nat`. -/
def lookupN {α : Type} : List (Nat × α) → Nat → Option α
  | [], _ => none
  | (k, v) :: rest, key => if k == key then some v else lookupN rest key

/-- Association-list update-or-append keyed by `Nat` (JavaScript field write /
`Map.set`: insertion order is preserved, an existing key is overwritten). -/
def upsertN {α : Type} : List (Nat × α) → Nat → α → List (Nat × α)
  | [], key, v => [(key, v)]
  | (k, w) :: rest, key, v =>
    if k == key then (k, v) :: rest else (k, w) :: upsertN rest key v

/-- `Table.get` — association-list lookup keyed by name. -/
def lookupStr {α : Type} : List (String × α) → String → Option α
  | [], _ => none
  | (k, v) :: rest, key => if k == key then some v else lookupStr rest key

/-- `Table.set` — update-or-append keyed by name. -/
def upsertStr {α : Type} : List (String × α) → String → α → List (String × α)
  | [], key, v => [(key, v)]
  | (k, w) :: rest, key, v =>
    if k == key then (k, v) :: rest else (k, w) :: upsertStr rest key v

/-- src/error.ts: a module-scoped `errors: Map<number, Error>`;
`error(location, message)` records `{pos, message}` only when no diagnostic is
already stored at that position (`if (!errors.has(pos)) errors.set(pos, ...)`).
The node form of `location` extracts `.pos` before the call sites below. -/
def error (pos : Nat) (message : String) : M Unit :=
  modifyM fun st =>
    if st.errors.any (fun e => e.fst == pos) then st
    else { st with errors := st.errors ++ [(pos, message)] }

/-- Whether the diagnostics sink already holds an entry at `pos`. -/
def hasErrorAt (st : St) (pos : Nat) : Bool :=
  st.errors.any (fun e => e.fst == pos)

/-- A reference to a mutable scope table: the `locals` table owned by the
Module/Function/Signature node at a position, or the `members` table of the
symbol at an index. -/
inductive TblRef where
  | localsRef (pos : Nat)
  | membersRef (symId : Nat)

/-- Dereference a table (JavaScript reads the table object through the node or
symbol). -/
def readTable (st : St) : TblRef → Option (List (String × Nat))
  | .localsRef pos => lookupN st.locals pos
  | .membersRef symId =>
    match st.symbols.get? symId with
    | some sym => sym.members
    | none => none

/-- Replace the symbol stored at an index. -/
def setSymbol (st : St) (i : Nat) (sym : SymData) : St :=
  { st with symbols := st.symbols.set i sym }

/-- Write a table back through its reference.  (In the source the table is a
shared `Map` object mutated in place; here the state is rebuilt.  A dangling
reference leaves the state unchanged — the call sites below only reach it
after `readTable` succeeded.) -/
def writeTable (st : St) (r : TblRef) (tbl : List (String × Nat)) : St :=
  match r with
  | .localsRef pos => { st with locals := upsertN st.locals pos tbl }
  | .membersRef symId =>
    match st.symbols.get? symId with
    | some sym => setSymbol st symId { sym with members := some tbl }
    | none => st


/-- The message of the TypeError JavaScript throws when a property of
`undefined` is read. -/
def undefMsg : String := "TypeError: reading a property of undefined"

/-- binder: `getDeclarationName(node)` — `name.text` for the named forms,
`"__object"` for object literals, and for other kinds an `error` plus the
sentinel `"__missing"`. -/
def getDeclarationName (node : Decl) : M String :=
  match node with
  | .varD _ name _ _ => pure name.text
  | .typeAliasD _ name _ => pure name.text
  | .propAssignD p => pure p.name.text
  | .propDeclD p => pure p.name.text
  | .paramD p => pure p.name.text
  | .typeParamD tp => pure tp.name.text
  | .objD _ _ => pure ("__object")
  | .oltD pos _ => do
      error pos ("Cannot get name of ObjectLiteralType")
      pure ("__missing")
  | .funcD pos _ _ _ _ _ => do
      error pos ("Cannot get name of Function")
      pure ("__missing")
  | .signatureD pos _ _ _ => do
      error pos ("Cannot get name of Signature")
      pure ("__missing")

/-- The ghost-logged `declaration.symbol = symbol` assignment that ends
`declareSymbol`. -/
def setDeclSymbol (d : Decl) (symId : Nat) : M Unit :=
  modifyM fun st =>
    { st with
      declSym := upsertN st.declSym d.pos symId,
      boundDecls := st.boundDecls ++ [(d, symId)] }

/-- binder: `declareSymbol(container, declaration, meaning)`.  If the container
already maps the declaration's name to a symbol: when some existing
declaration has the same meaning, record a redeclaration diagnostic at the new
declaration naming the first conflicting position and leave the symbol and the
table unchanged; otherwise append the declaration to the symbol (setting
`valueDeclaration` if it is the first Value declaration).  Otherwise insert a
fresh symbol.  In every case the declaration's `symbol` field is then set. -/
def declareSymbol (container : TblRef) (declaration : Decl) (meaning : Meaning) : M Unit := do
  let name ← getDeclarationName declaration
  let st ← getM
  match readTable st container with
  | none => fatalM undefMsg
  | some tbl =>
    match lookupStr tbl name with
    | some symId =>
      match st.symbols.get? symId with
      | none => fatalM undefMsg
      | some sym =>
        match sym.declarations.find? (fun d => meaning == getMeaning d) with
        | some other => do
            error declaration.pos
              ("Cannot redeclare " ++ name ++ "; first declared at " ++ Nat.repr other.pos)
            setDeclSymbol declaration symId
        | none => do
            setM (setSymbol st symId
              { sym with
                declarations := sym.declarations ++ [declaration],
                valueDeclaration :=
                  if sym.valueDeclaration.isNone && meaning == Meaning.value
                  then some declaration else sym.valueDeclaration })
            setDeclSymbol declaration symId
    | none => do
      let symId := st.symbols.length
      let st2 := { st with symbols := st.symbols ++ [{
        declarations := [declaration],
        valueDeclaration := if meaning == Meaning.value then some declaration else none }] }
      setM (writeTable st2 container (upsertStr tbl name symId))
      setDeclSymbol declaration symId

/-- binder: `setParents(parent, children)` — writes `child.parent = parent` for
each present child (children are node positions here). -/
def setParentsList : List (Nat × Nat) → Nat → List (Option Nat) → List (Nat × Nat)
  | ps, _, [] => ps
  | ps, parent, none :: rest => setParentsList ps parent rest
  | ps, parent, some c :: rest => setParentsList (upsertN ps c parent) parent rest

def setParents (parent : Nat) (children : List (Option Nat)) : M Unit :=
  modifyM fun st => { st with parents := setParentsList st.parents parent children }

/-- checker: `getSymbol(locals, name, meaning)` — the symbol stored under
`name` when at least one of its declarations has the requested meaning. -/
def getSymbol (st : St) (locals : List (String × Nat)) (name : String)
    (meaning : Meaning) : Option Nat :=
  match lookupStr locals name with
  | some symId =>
    match st.symbols.get? symId with
    | some sym =>
      if sym.declarations.any (fun d => getMeaning d == meaning) then some symId else none
    | none => none
  | none => none

/-- The table the `resolve` loop consults at one node: `locals` for a
Module/Function/Signature node, `symbol.members` for an Object or
ObjectLiteralType node, nothing otherwise. -/
def scopeTableAt (st : St) (p : Nat) : Option (List (String × Nat)) :=
  match lookupN st.scopes p with
  | some .localsScope => lookupN st.locals p
  | some .membersScope =>
    match lookupN st.declSym p with
    | some symId =>
      match st.symbols.get? symId with
      | some sym => sym.members
      | none => none
    | none => none
  | none => none

/-- checker: the `while (location)` walk of `resolve`, bounded by the number of
parent edges (the source's loop terminates on the binder's acyclic parent
chains; the bound makes the walk total without changing its value there). -/
def resolveAux (st : St) : Nat → Nat → String → Meaning → Option Nat
  | 0, _, _, _ => none
  | steps+1, p, name, meaning =>
    match scopeTableAt st p with
    | some tbl =>
      match getSymbol st tbl name meaning with
      | some symId => some symId
      | none =>
        match lookupN st.parents p with
        | some pp => resolveAux st steps pp name meaning
        | none => none
    | none =>
      match lookupN st.parents p with
      | some pp => resolveAux st steps pp name meaning
      | none => none

/-- checker: `resolve(location, name, meaning)` — walk the parent chain from
the node at position `p` looking the name up in each scope-owning node's
table; first match wins, `undefined` on exhaustion. -/
def resolve (st : St) (p : Nat) (name : String) (meaning : Meaning) : Option Nat :=
  resolveAux st (st.parents.length + 1) p name meaning

/-- The parser's symbol pre-creation for one node (parser.ts:
`node.symbol = { valueDeclaration, declarations: [node], members?: new Map() }`):
push the symbol, set the node's `symbol` back-reference, record the node's
scope-owning kind, and create its empty `locals` table when it owns one. -/
def allocParserSymbol (pos : Nat) (d : Decl) (withMembers : Bool) (vd : Bool)
    (sk : ScopeKind) (withLocals : Bool) : M Unit :=
  modifyM fun st =>
    let sym : SymData := { declarations := [d],
                           valueDeclaration := if vd then some d else none,
                           members := if withMembers then some [] else none }
    { st with
      symbols := st.symbols ++ [sym],
      declSym := upsertN st.declSym pos st.symbols.length,
      scopes := upsertN st.scopes pos sk,
      locals := if withLocals then upsertN st.locals pos [] else st.locals,
      boundDecls := st.boundDecls ++ [(d, st.symbols.length)] }

mutual

/-- Models the parser's side effects on a statement's subtree: the `symbol`
objects pre-created for Object, ObjectLiteralType, Function and Signature
nodes, the empty `locals`/`members` tables, and the record of each node's
scope-owning kind (parser.ts: parseExpressionBelowCall, parseType,
tryParseSignature, parseModule). -/
def parseInitStmt : Nat → Stmt → M Unit
  | 0, _ => outOfFuel
  | fuel+1, s =>
    match s with
    | .var _ _ typename initializer => do
        parseInitTyNodeOpt fuel typename
        parseInitExpr fuel initializer
    | .typeAlias _ _ typename => parseInitTyNode fuel typename
    | .exprStmt _ e => parseInitExpr fuel e
    | .ret _ e => parseInitExpr fuel e
  termination_by structural fuel _ => fuel

def parseInitStmts : Nat → List Stmt → M Unit
  | 0, _ => outOfFuel
  | _+1, [] => pure ()
  | fuel+1, s :: rest => do
      parseInitStmt fuel s
      parseInitStmts fuel rest
  termination_by structural fuel _ => fuel

def parseInitExpr : Nat → Expr → M Unit
  | 0, _ => outOfFuel
  | fuel+1, e =>
    match e with
    | .ident .. => pure ()
    | .num .. => pure ()
    | .strE .. => pure ()
    | .assign _ _ value => parseInitExpr fuel value
    | .objE pos properties => do
        parseInitProps fuel properties
        allocParserSymbol pos (.objD pos properties) true true .membersScope false
    | .funcE pos name tps params typename body => do
        parseInitParams fuel params
        parseInitTyNodeOpt fuel typename
        parseInitStmts fuel body
        allocParserSymbol pos (.funcD pos name tps params typename body) false true
          .localsScope true
    | .call _ expr targs args => do
        parseInitExpr fuel expr
        parseInitTyNodes fuel (targs.getD [])
        parseInitExprs fuel args
  termination_by structural fuel _ => fuel

def parseInitExprs : Nat → List Expr → M Unit
  | 0, _ => outOfFuel
  | _+1, [] => pure ()
  | fuel+1, e :: rest => do
      parseInitExpr fuel e
      parseInitExprs fuel rest
  termination_by structural fuel _ => fuel

def parseInitProps : Nat → List PropA → M Unit
  | 0, _ => outOfFuel
  | _+1, [] => pure ()
  | fuel+1, p :: rest => do
      parseInitExpr fuel p.initializer
      parseInitProps fuel rest
  termination_by structural fuel _ => fuel

def parseInitParams : Nat → List Param → M Unit
  | 0, _ => outOfFuel
  | _+1, [] => pure ()
  | fuel+1, p :: rest => do
      parseInitTyNodeOpt fuel p.typename
      parseInitParams fuel rest
  termination_by structural fuel _ => fuel

def parseInitTyNodeOpt : Nat → Option TyNode → M Unit
  | 0, _ => outOfFuel
  | fuel+1, t =>
    match t with
    | some tn => parseInitTyNode fuel tn
    | none => pure ()
  termination_by structural fuel _ => fuel

def parseInitTyNode : Nat → TyNode → M Unit
  | 0, _ => outOfFuel
  | fuel+1, t =>
    match t with
    | .identT .. => pure ()
    | .olt pos properties => do
        parseInitPropDs fuel properties
        allocParserSymbol pos (.oltD pos properties) true false .membersScope false
    | .signatureT pos tps params typename => do
        parseInitParams fuel params
        parseInitTyNode fuel typename
        allocParserSymbol pos (.signatureD pos tps params typename) false true
          .localsScope true
  termination_by structural fuel _ => fuel

def parseInitPropDs : Nat → List PropD → M Unit
  | 0, _ => outOfFuel
  | _+1, [] => pure ()
  | fuel+1, p :: rest => do
      parseInitTyNodeOpt fuel p.typename
      parseInitPropDs fuel rest
  termination_by structural fuel _ => fuel

def parseInitTyNodes : Nat → List TyNode → M Unit
  | 0, _ => outOfFuel
  | _+1, [] => pure ()
  | fuel+1, t :: rest => do
      parseInitTyNode fuel t
      parseInitTyNodes fuel rest
  termination_by structural fuel _ => fuel

end

/-- The parser's state effects for a whole module: the module's own empty
`locals` table plus `parseInitStmts` over its statements. -/
def parseInitModule : Nat → ModuleNode → M Unit
  | 0, _ => outOfFuel
  | fuel+1, m => do
      modifyM fun st =>
        { st with locals := upsertN st.locals 0 [],
                  scopes := upsertN st.scopes 0 .localsScope }
      parseInitStmts fuel m.statements

mutual

/-- binder: `bindStatement(locals, statement)`. -/
def bindStatement : Nat → TblRef → Stmt → M Unit
  | 0, _, _ => outOfFuel
  | fuel+1, locals, s =>
    match s with
    | .var pos name typename initializer => do
        setParents pos [some name.pos, typename.map TyNode.pos, some initializer.pos]
        bindExpression fuel initializer
        bindType fuel typename
        declareSymbol locals (.varD pos name typename initializer) .value
    | .typeAlias pos name typename => do
        setParents pos [some name.pos, some typename.pos]
        bindType fuel (some typename)
        declareSymbol locals (.typeAliasD pos name typename) .typeM
    | .exprStmt pos e => do
        setParents pos [some e.pos]
        bindExpression fuel e
    | .ret pos e => do
        setParents pos [some e.pos]
        bindExpression fuel e
  termination_by structural fuel _ _ => fuel

def bindStmts : Nat → TblRef → List Stmt → M Unit
  | 0, _, _ => outOfFuel
  | _+1, _, [] => pure ()
  | fuel+1, locals, s :: rest => do
      bindStatement fuel locals s
      bindStmts fuel locals rest
  termination_by structural fuel _ _ => fuel

/-- binder: `bindExpression(expr)`. -/
def bindExpression : Nat → Expr → M Unit
  | 0, _ => outOfFuel
  | fuel+1, e =>
    match e with
    | .objE pos properties => do
        setParents pos (properties.map (fun p => some p.pos))
        bindObjProps fuel pos properties
    | .funcE pos name tps params typename body => do
        setParents pos ((match name with | some n => [some n.pos] | none => [none])
          ++ (tps.getD []).map (fun tp => some tp.pos)
          ++ params.map (fun p => some p.pos)
          ++ [typename.map TyNode.pos]
          ++ body.map (fun b => some b.pos))
        bindType fuel typename
        bindTypeParamDecls fuel pos (tps.getD [])
        bindParamDecls fuel pos params
        bindStmts fuel (.localsRef pos) body
    | .assign pos name value => do
        setParents pos [some name.pos, some value.pos]
        bindExpression fuel value
    | .call pos expr targs args => do
        setParents pos ([some expr.pos] ++ (targs.getD []).map (fun t => some t.pos)
          ++ args.map (fun a => some a.pos))
        bindExpression fuel expr
        bindTypeNodes fuel (targs.getD [])
        bindExprs fuel args
    | .ident .. => pure ()
    | .num .. => pure ()
    | .strE .. => pure ()
  termination_by structural fuel _ => fuel

def bindExprs : Nat → List Expr → M Unit
  | 0, _ => outOfFuel
  | _+1, [] => pure ()
  | fuel+1, e :: rest => do
      bindExpression fuel e
      bindExprs fuel rest
  termination_by structural fuel _ => fuel

/-- The loop of the binder's Object case: each property's parents, its
initializer, then `declareSymbol(expr.symbol.members, property, Value)`. -/
def bindObjProps : Nat → Nat → List PropA → M Unit
  | 0, _, _ => outOfFuel
  | _+1, _, [] => pure ()
  | fuel+1, objPos, p :: rest => do
      setParents p.pos [some p.name.pos, some p.initializer.pos]
      bindExpression fuel p.initializer
      let st ← getM
      match lookupN st.declSym objPos with
      | none => fatalM undefMsg
      | some symId => do
          declareSymbol (.membersRef symId) (.propAssignD p) .value
          bindObjProps fuel objPos rest
  termination_by structural fuel _ _ => fuel

/-- The type-parameter loop shared by the binder's Function and Signature
cases: parents, then `declareSymbol(locals, typeParameter, Type)`. -/
def bindTypeParamDecls : Nat → Nat → List TyParam → M Unit
  | 0, _, _ => outOfFuel
  | _+1, _, [] => pure ()
  | fuel+1, ownerPos, tp :: rest => do
      setParents tp.pos [some tp.name.pos]
      declareSymbol (.localsRef ownerPos) (.typeParamD tp) .typeM
      bindTypeParamDecls fuel ownerPos rest
  termination_by structural fuel _ _ => fuel

/-- The parameter loop shared by the binder's Function and Signature cases:
parents, the parameter's type annotation, then
`declareSymbol(locals, parameter, Value)`. -/
def bindParamDecls : Nat → Nat → List Param → M Unit
  | 0, _, _ => outOfFuel
  | _+1, _, [] => pure ()
  | fuel+1, ownerPos, p :: rest => do
      setParents p.pos [some p.name.pos, p.typename.map TyNode.pos]
      bindType fuel p.typename
      declareSymbol (.localsRef ownerPos) (.paramD p) .value
      bindParamDecls fuel ownerPos rest
  termination_by structural fuel _ _ => fuel

/-- binder: `bindType(type)`.  Note that in the Signature case the source sets
the return annotation's parent but never recurses into it (`bindType` is not
called on `type.typename`), so declarations inside a signature's return type
are left unbound. -/
def bindType : Nat → Option TyNode → M Unit
  | 0, _ => outOfFuel
  | fuel+1, t =>
    match t with
    | some (.olt pos properties) => do
        setParents pos (properties.map (fun p => some p.pos))
        bindOltProps fuel pos properties
    | some (.signatureT pos tps params typename) => do
        setParents pos ((tps.getD []).map (fun tp => some tp.pos)
          ++ params.map (fun p => some p.pos) ++ [some typename.pos])
        bindTypeParamDecls fuel pos (tps.getD [])
        bindParamDecls fuel pos params
    | some (.identT ..) => pure ()
    | none => pure ()
  termination_by structural fuel _ => fuel

def bindTypeNodes : Nat → List TyNode → M Unit
  | 0, _ => outOfFuel
  | _+1, [] => pure ()
  | fuel+1, t :: rest => do
      bindType fuel (some t)
      bindTypeNodes fuel rest
  termination_by structural fuel _ => fuel

/-- The loop of the binder's ObjectLiteralType case: each property's parents,
its type annotation, then `declareSymbol(type.symbol.members, property,
Value)`. -/
def bindOltProps : Nat → Nat → List PropD → M Unit
  | 0, _, _ => outOfFuel
  | _+1, _, [] => pure ()
  | fuel+1, oltPos, p :: rest => do
      setParents p.pos [some p.name.pos, p.typename.map TyNode.pos]
      bindType fuel p.typename
      let st ← getM
      match lookupN st.declSym oltPos with
      | none => fatalM undefMsg
      | some symId => do
          declareSymbol (.membersRef symId) (.propDeclD p) .value
          bindOltProps fuel oltPos rest
  termination_by structural fuel _ _ => fuel

end

/-- binder: `bind(m)` — parents of the top-level statements, then
`bindStatement(m.locals, statement)` for each. -/
def bind : Nat → ModuleNode → M Unit
  | 0, _ => outOfFuel
  | fuel+1, m => do
      setParents 0 (m.statements.map (fun s => some s.pos))
      bindStmts fuel (.localsRef 0) m.statements

/-- The state at module load: no symbols, the type-id counter past the four
canonical primitives, an empty diagnostics sink. -/
def initSt : St :=
  { symbols := [], typeCount := 4, errors := [], declSym := [], locals := [],
    parents := [], scopes := [], boundDecls := [] }

/-- Parser symbol pre-creation followed by `bind`: the state a module's AST is
in when the checker starts. -/
def bindModule (fuel : Nat) (m : ModuleNode) : M Unit := do
  parseInitModule fuel m
  bind fuel m

/-- Whether a type is a `Primitive` (`type.kind === Kind.Primitive`). -/
def isPrim : Ty → Bool
  | .primitive _ => true
  | _ => false

/-- `Array.join(", ")`. -/
def joinComma : List String → String
  | [] => ""
  | [s] => s
  | s :: rest => s ++ ", " ++ joinComma rest

/-- The `(decl as Parameter).name.text` access of `typeToString`: the name of
a declaration that has one; `none` models the TypeError of reading `.text`
of `undefined` on the unnamed kinds. -/
def declNameText : Decl → Option String
  | .varD _ name _ _ => some name.text
  | .typeAliasD _ name _ => some name.text
  | .propAssignD p => some p.name.text
  | .propDeclD p => some p.name.text
  | .paramD p => some p.name.text
  | .typeParamD tp => some tp.name.text
  | .funcD _ (some n) _ _ _ _ => some n.text
  | _ => none

/-- `typeCount++`. -/
def freshTypeId : M Nat := fun st => .ok st.typeCount { st with typeCount := st.typeCount + 1 }

/-- Overwrite the cached `valueType` of the symbol at an index
(`symbol.valueType = type`). -/
def cacheValueType (symId : Nat) (t : Ty) : M Unit := do
  let st ← getM
  match st.symbols.get? symId with
  | none => fatalM undefMsg
  | some sym => setM (setSymbol st symId { sym with valueType := some t })

/-- Overwrite the cached `typeType` of the symbol at an index
(`symbol.typeType = type`). -/
def cacheTypeType (symId : Nat) (t : Ty) : M Unit := do
  let st ← getM
  match st.symbols.get? symId with
  | none => fatalM undefMsg
  | some sym => setM (setSymbol st symId { sym with typeType := some t })

/-- `decl.typeParameters?.map(p => p.symbol)` / `parameters.map(p => p.symbol)`
— read each declaration's bound symbol.  (In the source an unbound declaration
would put `undefined` in the array and crash at its first use; the embedding
fails at the read itself.) -/
def symbolsOfTyParams : List TyParam → M (List Nat)
  | [] => pure []
  | tp :: rest => do
      let st ← getM
      match lookupN st.declSym tp.pos with
      | none => fatalM undefMsg
      | some i => do
          let rest2 ← symbolsOfTyParams rest
          pure (i :: rest2)

def symbolsOfParams : List Param → M (List Nat)
  | [] => pure []
  | p :: rest => do
      let st ← getM
      match lookupN st.declSym p.pos with
      | none => fatalM undefMsg
      | some i => do
          let rest2 ← symbolsOfParams rest
          pure (i :: rest2)

/-- checker: the linear scan of `instantiateType`'s TypeVariable case:
`mapper.sources[i] === type` by pointer identity, returning `mapper.targets[i]`
(which may be `undefined`) on the first hit and the type itself on a miss. -/
def mapperScan : List OTy → List OTy → Ty → OTy
  | [], _, tv => some tv
  | s :: srest, targets, tv =>
    if otyIdEq s (some tv) then
      match targets with
      | [] => none
      | t :: _ => t
    else
      mapperScan srest (targets.tail) tv

/-- The inference-candidate store of `inferTypeArguments`: a Map keyed by
TypeVariable object (pointer identity, here id equality via `otyIdEq`). -/
abbrev Infs := List (OTy × List OTy)

/-- `inferences.set(typeParameter, [])` for each type parameter, in order. -/
def initialInferences : List OTy → Infs
  | [] => []
  | p :: ps => (p, []) :: initialInferences ps

/-- `inferences.get(key)`. -/
def infsLookup : Infs → OTy → Option (List OTy)
  | [], _ => none
  | (k, v) :: rest, key => if otyIdEq k key then some v else infsLookup rest key

/-- `inferences.get(key)!.push(source)` — append to the list stored under the
first matching key. -/
def infsAppend : Infs → OTy → OTy → Infs
  | [], _, _ => []
  | (k, v) :: rest, key, source =>
    if otyIdEq k key then (k, v ++ [source]) :: rest
    else (k, v) :: infsAppend rest key source

/-- `typeParameters.map(p => inferences.get(p)![0])` — the first candidate
collected for each type parameter (`undefined`, i.e. `none`, when none was). -/
def inferResults : List OTy → Infs → M (List OTy)
  | [], _ => pure []
  | p :: ps, infs =>
    match infsLookup infs p with
    | none => fatalM undefMsg
    | some l => do
        let rest ← inferResults ps infs
        pure ((match l with | [] => none | x :: _ => x) :: rest)

/-- The index range of checkCall's argument loop,
`0 ≤ i < min(argTypes.length, sig.parameters.length)`, as a zip of the
argument types, the parameter symbols and the argument nodes. -/
def zipArgs : List OTy → List Nat → List Expr → List (OTy × Nat × Expr)
  | t :: ts, p :: ps, a :: as2 => (t, p, a) :: zipArgs ts ps as2
  | _, _, _ => []

/-- checker: `forEachReturnStatement(body, callback)` — the statements of the
body on which the callback runs, in order.  The source's `traverse` returns
without descending on ExpressionStatement, Var and TypeAlias and invokes the
callback exactly on the Return statements, so the traversal selects the
top-level Return statements. -/
def returnStatements : List Stmt → List Stmt
  | [] => []
  | s :: rest =>
    match s with
    | .exprStmt _ _ => returnStatements rest
    | .var _ _ _ _ => returnStatements rest
    | .typeAlias _ _ _ => returnStatements rest
    | .ret p e => .ret p e :: returnStatements rest

set_option maxHeartbeats 3200000

mutual

/-- checker: `checkStatement(statement)` — ExpressionStatement and Return check
their expression; Var checks the initializer, then (when annotated) the
annotation, diagnosing a non-assignable initializer at the initializer's
position and returning the declared type; TypeAlias checks its type node. -/
def checkStatement : Nat → Stmt → M OTy
  | 0, _ => outOfFuel
  | fuel+1, s =>
    match s with
    | .exprStmt _ e => checkExpression fuel e
    | .var _ _ typename initializer => do
        let i ← checkExpression fuel initializer
        match typename with
        | none => pure i
        | some tn => do
            let t ← checkType fuel tn
            let b ← isAssignableTo fuel i t
            (if b then pure () else do
              let s1 ← typeToStringO fuel i
              let s2 ← typeToStringO fuel t
              error initializer.pos ("Cannot assign initialiser of type '" ++ s1 ++
                "' to variable with declared type '" ++ s2 ++ "'."))
            pure t
    | .typeAlias _ _ typename => checkType fuel typename
    | .ret _ e => checkExpression fuel e
  termination_by structural fuel _ => fuel

/-- The loop of `checkBody`'s first pass (statement results discarded). -/
def checkStmts : Nat → List Stmt → M Unit
  | 0, _ => outOfFuel
  | _+1, [] => pure ()
  | fuel+1, s :: rest => do
      let _ ← checkStatement fuel s
      checkStmts fuel rest
  termination_by structural fuel _ => fuel

/-- `module.statements.map(checkStatement)`. -/
def checkStmtsMap : Nat → List Stmt → M (List OTy)
  | 0, _ => outOfFuel
  | _+1, [] => pure []
  | fuel+1, s :: rest => do
      let t ← checkStatement fuel s
      let ts ← checkStmtsMap fuel rest
      pure (t :: ts)
  termination_by structural fuel _ => fuel

/-- checker: `checkExpression(expression)`. -/
def checkExpression : Nat → Expr → M OTy
  | 0, _ => outOfFuel
  | fuel+1, e =>
    match e with
    | .ident pos text => do
        let st ← getM
        match resolve st pos text .value with
        | some symId => getValueTypeOfSymbol fuel symId
        | none => do
            error pos ("Could not resolve " ++ text)
            pure (some errorType)
    | .num _ _ => pure (some numberType)
    | .strE _ _ => pure (some stringType)
    | .objE pos properties => do
        let ot ← checkObject fuel pos properties
        pure (some ot)
    | .assign _ name value => do
        let v ← checkExpression fuel value
        let t ← checkExpression fuel (.ident name.pos name.text)
        let b ← isAssignableTo fuel v t
        (if b then pure () else do
          let s1 ← typeToStringO fuel v
          let s2 ← typeToStringO fuel t
          error name.pos ("Cannot assign value of type '" ++ s1 ++
            "' to variable of type '" ++ s2 ++ "'."))
        pure t
    | .funcE pos _ _ _ _ _ => checkFunction fuel pos
    | .call _ expression typeArguments args => checkCall fuel expression typeArguments args
  termination_by structural fuel _ => fuel

/-- `call.arguments.map(checkExpression)`. -/
def checkExprs : Nat → List Expr → M (List OTy)
  | 0, _ => outOfFuel
  | _+1, [] => pure []
  | fuel+1, e :: rest => do
      let t ← checkExpression fuel e
      let ts ← checkExprs fuel rest
      pure (t :: ts)
  termination_by structural fuel _ => fuel

/-- checker: `checkObject(object)` — resolve each property from the property
node (finding the symbol the binder put on the object's members table), build
a fresh members table, check each initializer, return a fresh Object type. -/
def checkObject : Nat → Nat → List PropA → M Ty
  | 0, _, _ => outOfFuel
  | fuel+1, pos, properties => do
      let members ← checkObjectMembers fuel properties []
      let id ← freshTypeId
      let _ := pos
      pure (Ty.objectT id members)
  termination_by structural fuel _ _ => fuel

/-- The member loop of `checkObject`: `members.set(name, symbol)` then
`checkProperty(p)`; an unresolved property throws. -/
def checkObjectMembers : Nat → List PropA → List (String × Nat) → M (List (String × Nat))
  | 0, _, _ => outOfFuel
  | _+1, [], acc => pure acc
  | fuel+1, p :: rest, acc => do
      let st ← getM
      match resolve st p.pos p.name.text .value with
      | none => fatalM ("Binder did not correctly bind property " ++ p.name.text)
      | some symId => do
          let _ ← checkProperty fuel p
          checkObjectMembers fuel rest (upsertStr acc p.name.text symId)
  termination_by structural fuel _ _ => fuel

/-- checker: `checkProperty(property)` — the initializer's type. -/
def checkProperty : Nat → PropA → M OTy
  | 0, _ => outOfFuel
  | fuel+1, p => checkExpression fuel p.initializer
  termination_by structural fuel _ => fuel

/-- checker: `checkFunction(func)` — `getValueTypeOfSymbol(func.symbol)`. -/
def checkFunction : Nat → Nat → M OTy
  | 0, _ => outOfFuel
  | fuel+1, pos => do
      let st ← getM
      match lookupN st.declSym pos with
      | none => fatalM undefMsg
      | some symId => getValueTypeOfSymbol fuel symId
  termination_by structural fuel _ => fuel

/-- checker: `checkCall(call)` — see section 4.7 of the specification: callee
type, argument types, generic instantiation (inferring type arguments when
none are written), arity diagnosis at the callee, per-argument assignability
diagnosis, result `sig.returnType`. -/
def checkCall : Nat → Expr → Option (List TyNode) → List Expr → M OTy
  | 0, _, _, _ => outOfFuel
  | fuel+1, expression, typeArguments, args => do
      let expressionType ← checkExpression fuel expression
      match expressionType with
      | none => fatalM undefMsg
      | some (Ty.funcT _ fsig) => do
          let argTypes ← checkExprs fuel args
          let sig ← checkCallResolveSignature fuel fsig expression typeArguments argTypes
          (if sig.parameters.length != args.length then
            error expression.pos ("Expected " ++ Nat.repr sig.parameters.length ++
              " arguments, but got " ++ Nat.repr args.length ++ ".")
           else pure ())
          checkCallArgs fuel (zipArgs argTypes sig.parameters args)
          pure sig.returnType
      | some other => do
          let s1 ← typeToString fuel other
          error expression.pos ("Cannot call expression of type '" ++ s1 ++ "'.")
          pure (some errorType)
  termination_by structural fuel _ _ _ => fuel

/-- The `if (sig.typeParameters)` block of `checkCall`: on a generic
signature, fetch the type parameters' TypeVariables, obtain type arguments
(inferring them when the call writes none; diagnosing at the callee and using
`anyType` throughout on an arity mismatch; otherwise elaborating the written
type nodes), and instantiate the signature.  A non-generic signature passes
through unchanged. -/
def checkCallResolveSignature : Nat → Sig → Expr → Option (List TyNode) → List OTy → M Sig
  | 0, _, _, _, _ => outOfFuel
  | fuel+1, fsig, expression, typeArguments, argTypes =>
    match fsig.typeParameters with
    | none => pure fsig
    | some tps => do
        let typeParameters ← gttosList fuel tps
        let typeArgs ←
          (match typeArguments with
           | none => inferTypeArguments fuel typeParameters fsig argTypes
           | some tas =>
             if tps.length != tas.length then do
                error expression.pos ("Expected " ++ Nat.repr tps.length ++
                  " type arguments, but got " ++ Nat.repr tas.length ++ ".")
                pure (tps.map (fun _ => some anyType))
             else checkTypeNodes fuel tas : M (List OTy))
        instantiateSignature fuel fsig (.mk typeParameters typeArgs)
  termination_by structural fuel _ _ _ _ => fuel

/-- The argument loop of `checkCall`: for each position below
`min(argTypes.length, sig.parameters.length)`, fetch the parameter's value
type and diagnose a non-assignable argument at the argument node. -/
def checkCallArgs : Nat → List (OTy × Nat × Expr) → M Unit
  | 0, _ => outOfFuel
  | _+1, [] => pure ()
  | fuel+1, (argTy, pSym, argNode) :: rest => do
      let parameterType ← getValueTypeOfSymbol fuel pSym
      let b ← isAssignableTo fuel argTy parameterType
      (if b then pure () else do
        let s1 ← typeToStringO fuel parameterType
        let s2 ← typeToStringO fuel argTy
        error argNode.pos ("Expected argument of type '" ++ s1 ++ "', but got '" ++ s2 ++ "'."))
      checkCallArgs fuel rest
  termination_by structural fuel _ => fuel

/-- checker: `instantiateSignature(signature, mapper)` — type parameters
erased, parameters instantiated symbol-wise, return type substituted,
`target`/`mapper` recorded. -/
def instantiateSignature : Nat → Sig → Mapper → M Sig
  | 0, _, _ => outOfFuel
  | fuel+1, signature, mapper => do
      let params ← instantiateSymbols fuel signature.parameters mapper
      let ret ← (match signature.returnType with
        | none => fatalM undefMsg
        | some r => instantiateType fuel r mapper : M OTy)
      pure (Sig.mk none params ret (some signature) (some mapper))
  termination_by structural fuel _ _ => fuel

/-- checker: `instantiateType(type, mapper)` — identity on primitives, fresh
Function/Object copies with instantiated contents, mapper lookup (by pointer
identity) on type variables.  The result is an `Option` because a mapper
target can be `undefined` (a missing inferred type argument). -/
def instantiateType : Nat → Ty → Mapper → M OTy
  | 0, _, _ => outOfFuel
  | fuel+1, t, mapper =>
    match t with
    | .primitive id => pure (some (.primitive id))
    | .funcT _ signature => do
        let id ← freshTypeId
        let sig ← instantiateSignature fuel signature mapper
        pure (some (.funcT id sig))
    | .objectT _ members => do
        let members2 ← instantiateMembers fuel members mapper
        let id ← freshTypeId
        pure (some (.objectT id members2))
    | .typeVariable id name => pure (mapperScan mapper.sources mapper.targets (.typeVariable id name))
  termination_by structural fuel _ _ => fuel

/-- `instantiateType` applied to "a type or undefined": reading `.kind` of
`undefined` throws. -/
def instantiateOTy : Nat → OTy → Mapper → M OTy
  | 0, _, _ => outOfFuel
  | fuel+1, t, mapper =>
    match t with
    | none => fatalM undefMsg
    | some ty => instantiateType fuel ty mapper

/-- checker: `instantiateSymbol(symbol, mapper)` — a fresh symbol object that
keeps the declarations and valueDeclaration, records `target` and `mapper`,
and eagerly substitutes whichever of `valueType`/`typeType` is cached. -/
def instantiateSymbol : Nat → Nat → Mapper → M Nat
  | 0, _, _ => outOfFuel
  | fuel+1, symId, mapper => do
      let st ← getM
      match st.symbols.get? symId with
      | none => fatalM undefMsg
      | some sym => do
          let vt ← (match sym.valueType with
            | none => pure none
            | some v => instantiateType fuel v mapper : M OTy)
          let tt ← (match sym.typeType with
            | none => pure none
            | some v => instantiateType fuel v mapper : M OTy)
          let st2 ← getM
          let newId := st2.symbols.length
          setM { st2 with symbols := st2.symbols ++ [{
            declarations := sym.declarations,
            valueDeclaration := sym.valueDeclaration,
            valueType := vt,
            typeType := tt,
            target := some symId,
            mapper := some mapper }] }
          pure newId
  termination_by structural fuel _ _ => fuel

def instantiateSymbols : Nat → List Nat → Mapper → M (List Nat)
  | 0, _, _ => outOfFuel
  | _+1, [], _ => pure []
  | fuel+1, s :: rest, mapper => do
      let i ← instantiateSymbol fuel s mapper
      let rest2 ← instantiateSymbols fuel rest mapper
      pure (i :: rest2)
  termination_by structural fuel _ _ => fuel

/-- The members loop of `instantiateType`'s Object case. -/
def instantiateMembers : Nat → List (String × Nat) → Mapper → M (List (String × Nat))
  | 0, _, _ => outOfFuel
  | _+1, [], _ => pure []
  | fuel+1, (name, s) :: rest, mapper => do
      let i ← instantiateSymbol fuel s mapper
      let rest2 ← instantiateMembers fuel rest mapper
      pure ((name, i) :: rest2)
  termination_by structural fuel _ _ => fuel

/-- checker: `inferTypeArguments(typeParameters, signature, argTypes)` —
initialise an empty candidate list per type parameter, run `inferType` on each
(argument type, parameter value type) pair, and return the first candidate
collected for each type parameter. -/
def inferTypeArguments : Nat → List OTy → Sig → List OTy → M (List OTy)
  | 0, _, _, _ => outOfFuel
  | fuel+1, typeParameters, signature, argTypes => do
      let infs ← inferLoop fuel signature.parameters argTypes (initialInferences typeParameters)
      inferResults typeParameters infs
  termination_by structural fuel _ _ _ => fuel

/-- The parameter loop of `inferTypeArguments`: `inferType(argTypes[i],
getValueTypeOfSymbol(parameter))` with `i` running over the parameters
(`argTypes[i]` is `undefined` past the end of the arguments). -/
def inferLoop : Nat → List Nat → List OTy → Infs → M Infs
  | 0, _, _, _ => outOfFuel
  | _+1, [], _, infs => pure infs
  | fuel+1, p :: ps, argTypes, infs => do
      let pt ← getValueTypeOfSymbol fuel p
      let infs2 ← inferType fuel (argTypes.headD none) pt infs
      inferLoop fuel ps argTypes.tail infs2
  termination_by structural fuel _ _ _ => fuel

/-- checker: `inferType(source, target)` — structural recursion on the target:
Primitive and Object targets record nothing; a Function target recurses
pairwise (type parameters when both sides have them, parameters, return
types) when the source is also a Function; a TypeVariable target appends the
source to its candidate list. -/
def inferType : Nat → OTy → OTy → Infs → M Infs
  | 0, _, _, _ => outOfFuel
  | fuel+1, source, target, infs =>
    match target with
    | none => fatalM undefMsg
    | some (.primitive _) => pure infs
    | some (.objectT _ _) => pure infs
    | some (.funcT _ targetSig) =>
        (match source with
         | none => fatalM undefMsg
         | some (.funcT _ sourceSig) => do
             let infs1 ← (match sourceSig.typeParameters, targetSig.typeParameters with
               | some stps, some ttps => inferFromSymbols fuel stps ttps infs
               | _, _ => pure infs : M Infs)
             let infs2 ← inferFromSymbols fuel sourceSig.parameters targetSig.parameters infs1
             inferType fuel sourceSig.returnType targetSig.returnType infs2
         | some _ => pure infs)
    | some (.typeVariable id name) =>
        match infsLookup infs (some (.typeVariable id name)) with
        | none => fatalM undefMsg
        | some _ => pure (infsAppend infs (some (.typeVariable id name)) source)
  termination_by structural fuel _ _ _ => fuel

/-- checker: `inferFromSymbols(sources, targets)` — pairwise `inferType` on the
value types, up to the shorter list. -/
def inferFromSymbols : Nat → List Nat → List Nat → Infs → M Infs
  | 0, _, _, _ => outOfFuel
  | fuel+1, s :: ss, t :: ts, infs => do
      let a ← getValueTypeOfSymbol fuel s
      let b ← getValueTypeOfSymbol fuel t
      let infs2 ← inferType fuel a b infs
      inferFromSymbols fuel ss ts infs2
  | _+1, _, _, infs => pure infs
  termination_by structural fuel _ _ _ => fuel

/-- checker: `checkParameter(parameter)` — the annotation's type, or `anyType`. -/
def checkParameter : Nat → Param → M OTy
  | 0, _ => outOfFuel
  | fuel+1, p =>
    match p.typename with
    | some tn => checkType fuel tn
    | none => pure (some anyType)
  termination_by structural fuel _ => fuel

def checkParams : Nat → List Param → M Unit
  | 0, _ => outOfFuel
  | _+1, [] => pure ()
  | fuel+1, p :: rest => do
      let _ ← checkParameter fuel p
      checkParams fuel rest
  termination_by structural fuel _ => fuel

/-- checker: `checkTypeParameter(typeParameter)` —
`getTypeTypeOfSymbol(typeParameter.symbol)`. -/
def checkTypeParameter : Nat → TyParam → M OTy
  | 0, _ => outOfFuel
  | fuel+1, tp => do
      let st ← getM
      match lookupN st.declSym tp.pos with
      | none => fatalM undefMsg
      | some symId => getTypeTypeOfSymbol fuel symId
  termination_by structural fuel _ => fuel

def checkTypeParams : Nat → List TyParam → M Unit
  | 0, _ => outOfFuel
  | _+1, [] => pure ()
  | fuel+1, tp :: rest => do
      let _ ← checkTypeParameter fuel tp
      checkTypeParams fuel rest
  termination_by structural fuel _ => fuel

/-- checker: `checkBody(body, declaredType?)` — check every statement, then
walk the top-level Return statements re-checking each, diagnosing returns
whose type is neither the declared type itself nor assignable to it, and
yield the first collected return type (`undefined` when there is none). -/
def checkBody : Nat → List Stmt → OTy → M OTy
  | 0, _, _ => outOfFuel
  | fuel+1, body, declaredType => do
      checkStmts fuel body
      let types ← collectReturnTypes fuel (returnStatements body) declaredType
      pure (match types with | [] => none | t :: _ => t)
  termination_by structural fuel _ _ => fuel

/-- The callback loop of `checkBody` over `forEachReturnStatement`: each
Return statement's type is computed, compared with the declared type
(pointer inequality first, then assignability) and collected. -/
def collectReturnTypes : Nat → List Stmt → OTy → M (List OTy)
  | 0, _, _ => outOfFuel
  | _+1, [], _ => pure []
  | fuel+1, r :: rest, declaredType => do
      let returnType ← checkStatement fuel r
      (match declaredType with
       | none => pure ()
       | some dt =>
         if otyIdEq returnType (some dt) then pure ()
         else do
           let b ← isAssignableTo fuel returnType (some dt)
           if b then pure () else do
             let s1 ← typeToStringO fuel returnType
             let s2 ← typeToStringO fuel (some dt)
             error r.pos ("Returned type '" ++ s1 ++
               "' does not match declared return type '" ++ s2 ++ "'."))
      let others ← collectReturnTypes fuel rest declaredType
      pure (returnType :: others)
  termination_by structural fuel _ _ => fuel

/-- checker: `checkType(type)` — `string`/`number` resolve to the canonical
primitives without consulting tables; other identifiers resolve with Type
meaning (diagnosing and yielding `errorType` when unresolved); object literal
types and signatures are elaborated. -/
def checkType : Nat → TyNode → M OTy
  | 0, _ => outOfFuel
  | fuel+1, t =>
    match t with
    | .identT pos text =>
        if text == "string" then pure (some stringType)
        else if text == "number" then pure (some numberType)
        else do
          let st ← getM
          match resolve st pos text .typeM with
          | some symId => getTypeTypeOfSymbol fuel symId
          | none => do
              error pos ("Could not resolve type " ++ text)
              pure (some errorType)
    | .olt pos properties => do
        let ot ← checkObjectLiteralType fuel pos properties
        pure (some ot)
    | .signatureT pos _ _ _ => do
        let st ← getM
        match lookupN st.declSym pos with
        | none => fatalM undefMsg
        | some symId => getTypeTypeOfSymbol fuel symId
  termination_by structural fuel _ => fuel

def checkTypeNodes : Nat → List TyNode → M (List OTy)
  | 0, _ => outOfFuel
  | _+1, [] => pure []
  | fuel+1, t :: rest => do
      let a ← checkType fuel t
      let rest2 ← checkTypeNodes fuel rest
      pure (a :: rest2)
  termination_by structural fuel _ => fuel

/-- checker: `checkObjectLiteralType(object)` — like `checkObject` but driving
`checkPropertyDeclaration`, and the resulting fresh Object type is memoised on
`object.symbol.typeType`. -/
def checkObjectLiteralType : Nat → Nat → List PropD → M Ty
  | 0, _, _ => outOfFuel
  | fuel+1, pos, properties => do
      let members ← checkOltMembers fuel properties []
      let id ← freshTypeId
      let ot := Ty.objectT id members
      let st ← getM
      match lookupN st.declSym pos with
      | none => fatalM undefMsg
      | some symId =>
        match st.symbols.get? symId with
        | none => fatalM undefMsg
        | some sym => do
            setM (setSymbol st symId { sym with typeType := some ot })
            pure ot
  termination_by structural fuel _ _ => fuel

/-- The member loop of `checkObjectLiteralType`. -/
def checkOltMembers : Nat → List PropD → List (String × Nat) → M (List (String × Nat))
  | 0, _, _ => outOfFuel
  | _+1, [], acc => pure acc
  | fuel+1, p :: rest, acc => do
      let st ← getM
      match resolve st p.pos p.name.text .value with
      | none => fatalM ("Binder did not correctly bind property " ++ p.name.text)
      | some symId => do
          let _ ← checkPropertyDeclaration fuel p
          checkOltMembers fuel rest (upsertStr acc p.name.text symId)
  termination_by structural fuel _ _ => fuel

/-- checker: `checkPropertyDeclaration(property)` — the annotation's type, or
`anyType`. -/
def checkPropertyDeclaration : Nat → PropD → M OTy
  | 0, _ => outOfFuel
  | fuel+1, p =>
    match p.typename with
    | some tn => checkType fuel tn
    | none => pure (some anyType)
  termination_by structural fuel _ => fuel

/-- checker: `getValueTypeOfSymbol(symbol)` — fatal without a value
declaration; the cached `valueType` when present; instantiation through
`target`/`mapper` for instantiated symbols; otherwise dispatch on the value
declaration's kind.  There is no in-progress marker: a self-referential
declaration re-enters this computation with an unchanged state. -/
def getValueTypeOfSymbol : Nat → Nat → M OTy
  | 0, _ => outOfFuel
  | fuel+1, symId => do
      let st ← getM
      match st.symbols.get? symId with
      | none => fatalM undefMsg
      | some sym =>
        match sym.valueDeclaration with
        | none => fatalM ("Cannot get value type of symbol without value declaration")
        | some vd =>
          match sym.valueType with
          | some t => pure (some t)
          | none =>
            match sym.target with
            | some tgt =>
                (match sym.mapper with
                 | some mapper => do
                     let t ← getValueTypeOfSymbol fuel tgt
                     instantiateOTy fuel t mapper
                 | none => fatalM undefMsg)
            | none =>
              match vd with
              | .varD p n tn init => checkStatement fuel (.var p n tn init)
              | .typeAliasD p n tn => checkStatement fuel (.typeAlias p n tn)
              | .objD p props => checkExpression fuel (.objE p props)
              | .propAssignD pa => checkProperty fuel pa
              | .propDeclD pd =>
                  (match pd.typename with
                   | some tn => checkType fuel tn
                   | none => pure (some anyType))
              | .paramD pa => checkParameter fuel pa
              | .funcD p _ tps params tn body => do
                  let t ← getTypeOfFunction fuel p tps params tn body
                  pure (some t)
              | _ => fatalM ("Unxpected value declaration kind")
  termination_by structural fuel _ => fuel

/-- checker: `getTypeOfFunction(func)` — check type parameters and parameters
for their side effects, compute the declared type and the body type, build
the signature (type parameters and parameters are the declarations' symbols,
return type `declaredType || bodyType`), and memoise a fresh Function type on
`func.symbol.valueType`. -/
def getTypeOfFunction : Nat → Nat → Option (List TyParam) → List Param →
    Option TyNode → List Stmt → M Ty
  | 0, _, _, _, _, _ => outOfFuel
  | fuel+1, pos, tps, params, typename, body => do
      checkTypeParams fuel (tps.getD [])
      checkParams fuel params
      let declaredType ← (match typename with
        | none => pure none
        | some tn => checkType fuel tn : M OTy)
      let bodyType ← checkBody fuel body declaredType
      let typeParameters ← (match tps with
        | none => pure none
        | some l => do
            let ids ← symbolsOfTyParams l
            pure (some ids) : M (Option (List Nat)))
      let parameters ← symbolsOfParams params
      let returnType := (match declaredType with | some d => some d | none => bodyType)
      let id ← freshTypeId
      let ft := Ty.funcT id (.mk typeParameters parameters returnType none none)
      let st ← getM
      match lookupN st.declSym pos with
      | none => fatalM undefMsg
      | some symId =>
        match st.symbols.get? symId with
        | none => fatalM undefMsg
        | some sym => do
            setM (setSymbol st symId { sym with valueType := some ft })
            pure ft
  termination_by structural fuel _ _ _ _ _ => fuel

/-- checker: `getTypeOfSignature(decl)` — the analogous builder for Signature
type nodes; the return type defaults to `anyType`; memoised on
`decl.symbol.typeType`. -/
def getTypeOfSignature : Nat → Nat → Option (List TyParam) → List Param → TyNode → M Ty
  | 0, _, _, _, _ => outOfFuel
  | fuel+1, pos, tps, params, typename => do
      checkTypeParams fuel (tps.getD [])
      checkParams fuel params
      let typeParameters ← (match tps with
        | none => pure none
        | some l => do
            let ids ← symbolsOfTyParams l
            pure (some ids) : M (Option (List Nat)))
      let parameters ← symbolsOfParams params
      let rt ← checkType fuel typename
      let returnType := some (match rt with | some r => r | none => anyType)
      let id ← freshTypeId
      let ft := Ty.funcT id (.mk typeParameters parameters returnType none none)
      let st ← getM
      match lookupN st.declSym pos with
      | none => fatalM undefMsg
      | some symId =>
        match st.symbols.get? symId with
        | none => fatalM undefMsg
        | some sym => do
            setM (setSymbol st symId { sym with typeType := some ft })
            pure ft
  termination_by structural fuel _ _ _ _ => fuel

/-- checker: `getTypeTypeOfSymbol(symbol)` — the cached `typeType`;
instantiation through `target`/`mapper`; otherwise the first declaration that
yields a type (TypeAlias, TypeParameter — allocating and caching a fresh
TypeVariable — or Signature); exhaustion is fatal. -/
def getTypeTypeOfSymbol : Nat → Nat → M OTy
  | 0, _ => outOfFuel
  | fuel+1, symId => do
      let st ← getM
      match st.symbols.get? symId with
      | none => fatalM undefMsg
      | some sym =>
        match sym.typeType with
        | some t => pure (some t)
        | none =>
          match sym.target with
          | some tgt =>
              (match sym.mapper with
               | some mapper => do
                   let t ← getTypeTypeOfSymbol fuel tgt
                   instantiateOTy fuel t mapper
               | none => fatalM undefMsg)
          | none => gttosDeclScan fuel symId sym.declarations
  termination_by structural fuel _ => fuel

/-- The declaration loop of `getTypeTypeOfSymbol`. -/
def gttosDeclScan : Nat → Nat → List Decl → M OTy
  | 0, _, _ => outOfFuel
  | _+1, _, [] => fatalM ("Symbol has no type declarations")
  | fuel+1, symId, d :: rest =>
    match d with
    | .typeAliasD _ _ typename => checkType fuel typename
    | .typeParamD tp => do
        let id ← freshTypeId
        let tv := Ty.typeVariable id tp.name.text
        cacheTypeType symId tv
        pure (some tv)
    | .signatureD pos stps sparams styname => do
        let t ← getTypeOfSignature fuel pos stps sparams styname
        pure (some t)
    | _ => gttosDeclScan fuel symId rest
  termination_by structural fuel _ _ => fuel

/-- `sig.typeParameters.map(getTypeTypeOfSymbol)`. -/
def gttosList : Nat → List Nat → M (List OTy)
  | 0, _ => outOfFuel
  | _+1, [] => pure []
  | fuel+1, s :: rest => do
      let t ← getTypeTypeOfSymbol fuel s
      let ts ← gttosList fuel rest
      pure (t :: ts)
  termination_by structural fuel _ => fuel

/-- checker: `typeToString(type)` — the four primitives by id, objects as
brace-enclosed member lists, functions as parenthesised parameter lists with
the return type, type variables by name. -/
def typeToString : Nat → Ty → M String
  | 0, _ => outOfFuel
  | fuel+1, t =>
    match t with
    | .primitive id =>
        if id == 0 then pure ("string")
        else if id == 1 then pure ("number")
        else if id == 2 then pure ("error")
        else if id == 3 then pure ("any")
        else fatalM ("Unknown primitive type with id " ++ Nat.repr id)
    | .objectT _ members => do
        let parts ← memberStrings fuel members
        pure ("\x7b " ++ joinComma parts ++ " \x7d")
    | .funcT _ signature => do
        let parts ← paramStrings fuel signature.parameters
        let r ← typeToStringO fuel signature.returnType
        pure ("(" ++ joinComma parts ++ ") => " ++ r)
    | .typeVariable _ name => pure name
  termination_by structural fuel _ => fuel

/-- `typeToString` applied to "a type or undefined" (reading `.kind` of
`undefined` throws). -/
def typeToStringO : Nat → OTy → M String
  | 0, _ => outOfFuel
  | fuel+1, t =>
    match t with
    | none => fatalM undefMsg
    | some ty => typeToString fuel ty
  termination_by structural fuel _ => fuel

def memberStrings : Nat → List (String × Nat) → M (List String)
  | 0, _ => outOfFuel
  | _+1, [] => pure []
  | fuel+1, (name, symId) :: rest => do
      let t ← getValueTypeOfSymbol fuel symId
      let s1 ← typeToStringO fuel t
      let rest2 ← memberStrings fuel rest
      pure ((name ++ ": " ++ s1) :: rest2)
  termination_by structural fuel _ => fuel

def paramStrings : Nat → List Nat → M (List String)
  | 0, _ => outOfFuel
  | _+1, [] => pure []
  | fuel+1, symId :: rest => do
      let st ← getM
      match st.symbols.get? symId with
      | none => fatalM undefMsg
      | some sym =>
        match sym.valueDeclaration with
        | none => fatalM undefMsg
        | some vd =>
          match declNameText vd with
          | none => fatalM undefMsg
          | some nm => do
              let t ← getValueTypeOfSymbol fuel symId
              let s1 ← typeToStringO fuel t
              let rest2 ← paramStrings fuel rest
              pure ((nm ++ ": " ++ s1) :: rest2)
  termination_by structural fuel _ => fuel

/-- checker: `isAssignableTo(source, target)` — the identity / `anyType` /
`errorType` fast paths; primitives by identity; objects member-wise (extra
source members permitted); functions by renaming the target's type variables
to the source's when both are generic, then covariant return comparison,
`source.parameters.length <= target.parameters.length`, and contravariant
parameter comparison; `false` otherwise. -/
def isAssignableTo : Nat → OTy → OTy → M Bool
  | 0, _, _ => outOfFuel
  | fuel+1, source, target =>
    if otyIdEq source target || otyIdEq source (some anyType) || otyIdEq target (some anyType)
        || otyIdEq source (some errorType) || otyIdEq target (some errorType) then
      pure true
    else
      match source, target with
      | none, _ => fatalM undefMsg
      | _, none => fatalM undefMsg
      | some s, some t =>
        if isPrim s || isPrim t then pure (tyId s == tyId t)
        else
          match s, t with
          | Ty.objectT _ smembers, Ty.objectT _ tmembers =>
              objAssignMembers fuel smembers tmembers
          | Ty.funcT _ ssig, Ty.funcT _ tsig => do
              let tsig2 ← funcAssignRename fuel ssig tsig
              let b1 ← isAssignableTo fuel ssig.returnType tsig2.returnType
              if b1 then
                if ssig.parameters.length ≤ tsig2.parameters.length then
                  funcAssignParams fuel ssig.parameters tsig2.parameters
                else pure false
              else pure false
          | _, _ => pure false
  termination_by structural fuel _ _ => fuel

/-- The member loop of `isAssignableTo`'s Object case: every target member
must exist in the source with an assignable value type. -/
def objAssignMembers : Nat → List (String × Nat) → List (String × Nat) → M Bool
  | 0, _, _ => outOfFuel
  | _+1, _, [] => pure true
  | fuel+1, smembers, (key, tSym) :: rest =>
      match lookupStr smembers key with
      | none => pure false
      | some sSym => do
          let a ← getValueTypeOfSymbol fuel sSym
          let b ← getValueTypeOfSymbol fuel tSym
          let ok ← isAssignableTo fuel a b
          if ok then objAssignMembers fuel smembers rest else pure false
  termination_by structural fuel _ _ => fuel

/-- The generic-renaming step of `isAssignableTo`'s Function case: when both
signatures have type parameters, instantiate the target signature with a
mapper from the target's type variables to the source's. -/
def funcAssignRename : Nat → Sig → Sig → M Sig
  | 0, _, _ => outOfFuel
  | fuel+1, ssig, tsig =>
    match ssig.typeParameters with
    | none => pure tsig
    | some stps =>
      match tsig.typeParameters with
      | none => pure tsig
      | some ttps => do
          let sources ← gttosList fuel ttps
          let targets ← gttosList fuel stps
          instantiateSignature fuel tsig (.mk sources targets)

/-- The `.every` loop of `isAssignableTo`'s Function case: contravariant —
each target parameter's type must be assignable to the source parameter's. -/
def funcAssignParams : Nat → List Nat → List Nat → M Bool
  | 0, _, _ => outOfFuel
  | _+1, [], _ => pure true
  | _+1, _ :: _, [] => fatalM undefMsg
  | fuel+1, p :: ps, tp :: tps => do
      let a ← getValueTypeOfSymbol fuel tp
      let b ← getValueTypeOfSymbol fuel p
      let ok ← isAssignableTo fuel a b
      if ok then funcAssignParams fuel ps tps else pure false
  termination_by structural fuel _ _ => fuel

end

/-- checker: `check(module)` / `checker(module)` —
`module.statements.map(checkStatement)`. -/
def check : Nat → ModuleNode → M (List OTy)
  | 0, _ => outOfFuel
  | fuel+1, m => checkStmtsMap fuel m.statements

/-- The invariant claim C1 concerns, for one ghost-logged assignment `(d, i)`:
the declaration's `symbol` field is set (non-null), and the symbol at index
`i` either lists `d` among its declarations, or lists some other declaration
of the same meaning — the redeclaration case, in which `declareSymbol`
assigns the pre-existing symbol to the declaration without appending it. -/
def symP (st : St) (d : Decl) (i : Nat) : Prop :=
  (lookupN st.declSym d.pos).isSome ∧
  ∃ sym, st.symbols.get? i = some sym ∧
    (d ∈ sym.declarations ∨ ∃ d2, d2 ∈ sym.declarations ∧ getMeaning d2 = getMeaning d)

/-- `symP` holds of every assignment the ghost log has recorded so far. -/
def bindInv (st : St) : Prop := ∀ q ∈ st.boundDecls, symP st q.1 q.2

/-- One state extends another without disturbing the invariant's ingredients:
no `declaration.symbol` back-reference is dropped, no symbol loses a
declaration from its `declarations` list (the source only appends to these),
and every ghost-log entry added along the way satisfies `symP` in the final
state. -/
def symLe (xs ys : List SymData) : Prop :=
  ∀ i sym, xs.get? i = some sym →
    ∃ sym2, ys.get? i = some sym2 ∧ ∀ d ∈ sym.declarations, d ∈ sym2.declarations

def dsLe (xs ys : List (Nat × Nat)) : Prop :=
  ∀ p, (lookupN xs p).isSome → (lookupN ys p).isSome

def Mono (st st2 : St) : Prop :=
  dsLe st.declSym st2.declSym ∧ symLe st.symbols st2.symbols ∧
  ∃ new, st2.boundDecls = st.boundDecls ++ new ∧ ∀ q ∈ new, symP st2 q.1 q.2

/-- A computation all of whose normal completions are `Mono` steps. -/
def MonoM {α : Type} (x : M α) : Prop :=
  ∀ st a st2, x st = .ok a st2 → Mono st st2

/- Concrete programs and states the claims are instantiated on. -/

/-- C1 module: `var x = 1; var x = 2; type F = () => \x7b y: number \x7d`. -/
def c1x1 : Stmt := .var 10 ⟨11, "x"⟩ none (.num 12 1)

def c1x2 : Stmt := .var 13 ⟨14, "x"⟩ none (.num 15 2)

def c1sigRet : TyNode := .olt 20 [.mk 21 ⟨22, "y"⟩ (some (.identT 23 "number"))]

def c1sig : TyNode := .signatureT 24 none [] c1sigRet

def c1falias : Stmt := .typeAlias 25 ⟨26, "F"⟩ c1sig

def c1m : ModuleNode := ⟨[c1x1, c1x2, c1falias]⟩

/-- The first `var x` declaration node of `c1m`. -/
def c1d1 : Decl := .varD 10 ⟨11, "x"⟩ none (.num 12 1)

/-- The redeclaring `var x` declaration node of `c1m`. -/
def c1d2 : Decl := .varD 13 ⟨14, "x"⟩ none (.num 15 2)

/-- C2 module: `var x = x` — the initializer resolves to the very symbol whose
value type is being computed. -/
def c2d : Decl := .varD 1 ⟨2, "x"⟩ none (.ident 3 "x")

def c2var : Stmt := .var 1 ⟨2, "x"⟩ none (.ident 3 "x")

def c2m : ModuleNode := ⟨[c2var]⟩

/-- The state `bindModule` leaves `c2m` in: one symbol for `x`, no cached
value type. -/
def c2St : St :=
  { symbols := [{ declarations := [c2d], valueDeclaration := some c2d }],
    typeCount := 4, errors := [], declSym := [(1, 0)], locals := [(0, [("x", 0)])],
    parents := [(1, 0), (2, 1), (3, 1)], scopes := [(0, .localsScope)],
    boundDecls := [(c2d, 0)] }

/-- C3 concrete signatures: two structurally equal `() => number` signatures
carried by distinct Function type objects (ids 5 and 6). -/
def c3s : Sig := .mk none [] (some numberType) none none

def c3t : Sig := .mk none [] (some numberType) none none

/-- C4 concrete state: a table mapping `x` to a symbol that already holds the
Value declaration `c4d1`. -/
def c4d1 : Decl := .varD 10 ⟨11, "x"⟩ none (.num 12 1)

def c4d2 : Decl := .varD 13 ⟨14, "x"⟩ none (.num 15 2)

def c4sym : SymData := { declarations := [c4d1], valueDeclaration := some c4d1 }

def c4st : St :=
  { symbols := [c4sym], typeCount := 4, errors := [], declSym := [],
    locals := [(0, [("x", 0)])], parents := [], scopes := [], boundDecls := [] }

/-- C5 concrete state: `f` has the checked type `(x: number) => number`
(symbol 1 is the parameter) and is called with zero arguments. -/
def c5sig : Sig := .mk none [1] (some numberType) none none

def c5f : Decl := .varD 1 ⟨2, "f"⟩ none (.num 3 0)

def c5param : Param := .mk 50 ⟨51, "x"⟩ (some (.identT 52 "number"))

def c5st : St :=
  { symbols := [
      { declarations := [c5f], valueDeclaration := some c5f,
        valueType := some (.funcT 11 c5sig) },
      { declarations := [.paramD c5param], valueDeclaration := some (.paramD c5param),
        valueType := some numberType } ],
    typeCount := 12, errors := [], declSym := [], locals := [(0, [("f", 0)])],
    parents := [(2, 0)], scopes := [(0, .localsScope)], boundDecls := [] }

/-- `c5st` after the arity diagnostic at the call's expression. -/
def c5stE : St :=
  { c5st with errors := c5st.errors ++
      [((Expr.ident 2 "f").pos, "Expected " ++ Nat.repr c5sig.parameters.length ++
        " arguments, but got " ++ Nat.repr ([] : List Expr).length ++ ".")] }

/-- C10 concrete state: `f` has the generic checked type `<T>(x: number) => T`
— the type parameter `T` occurs only in the return type, so calling `f(1)`
infers no candidate for it. -/
def c10T : Ty := .typeVariable 10 "T"

def c10param : Param := .mk 50 ⟨51, "x"⟩ (some (.identT 52 "number"))

def c10sig : Sig := .mk (some [1]) [2] (some c10T) none none

def c10f : Decl := .varD 1 ⟨2, "f"⟩ none (.num 3 0)

def c10st : St :=
  { symbols := [
      { declarations := [c10f], valueDeclaration := some c10f,
        valueType := some (.funcT 11 c10sig) },
      { declarations := [.typeParamD ⟨40, ⟨41, "T"⟩⟩], valueDeclaration := none,
        typeType := some c10T },
      { declarations := [.paramD c10param], valueDeclaration := some (.paramD c10param),
        valueType := some numberType } ],
    typeCount := 12, errors := [], declSym := [], locals := [(0, [("f", 0)])],
    parents := [(2, 0)], scopes := [(0, .localsScope)], boundDecls := [] }


/-! The theorems: how the monad runs, the binder's symbol-attachment
invariant, and the claims. -/

/-- How `pure` of the monad `M` runs on a state. -/
theorem mPure_def {α : Type} (a : α) (st : St) : (pure a : M α) st = .ok a st := rfl

/-- How `bind` of the monad `M` runs on a state. -/
theorem mBind_def {α β : Type} (x : M α) (f : α → M β) (st : St) :
    (x >>= f) st = (match x st with
      | .ok a st2 => f a st2
      | .fatal msg => Outcome.fatal msg
      | .timeout => Outcome.timeout) := rfl

/- ---- basic lemmas ---- -/

theorem symLe_refl (xs : List SymData) : symLe xs xs :=
  fun _ sym h => ⟨sym, h, fun _ hd => hd⟩

theorem symLe_trans {xs ys zs : List SymData} (h1 : symLe xs ys) (h2 : symLe ys zs) :
    symLe xs zs := by
  intro i sym h
  obtain ⟨sym2, h2a, h2b⟩ := h1 i sym h
  obtain ⟨sym3, h3a, h3b⟩ := h2 i sym2 h2a
  exact ⟨sym3, h3a, fun d hd => h3b d (h2b d hd)⟩

theorem dsLe_refl (xs : List (Nat × Nat)) : dsLe xs xs := fun _ h => h

theorem dsLe_trans {xs ys zs : List (Nat × Nat)} (h1 : dsLe xs ys) (h2 : dsLe ys zs) :
    dsLe xs zs := fun p h => h2 p (h1 p h)

theorem symP_mono {st st2 : St} {d : Decl} {i : Nat}
    (hds : dsLe st.declSym st2.declSym) (hsy : symLe st.symbols st2.symbols)
    (h : symP st d i) : symP st2 d i := by
  obtain ⟨h1, sym, h2, h3⟩ := h
  obtain ⟨sym2, h4, h5⟩ := hsy i sym h2
  refine ⟨hds d.pos h1, sym2, h4, ?_⟩
  cases h3 with
  | inl h3 => exact Or.inl (h5 d h3)
  | inr h3 =>
    obtain ⟨d2, hmem, hmean⟩ := h3
    exact Or.inr ⟨d2, h5 d2 hmem, hmean⟩

theorem mono_refl (st : St) : Mono st st :=
  ⟨dsLe_refl _, symLe_refl _, [], (List.append_nil _).symm, fun _ h => absurd h (List.not_mem_nil _)⟩

theorem mono_trans {st st2 st3 : St} (h1 : Mono st st2) (h2 : Mono st2 st3) :
    Mono st st3 := by
  obtain ⟨hd1, hs1, new1, hb1, hn1⟩ := h1
  obtain ⟨hd2, hs2, new2, hb2, hn2⟩ := h2
  refine ⟨dsLe_trans hd1 hd2, symLe_trans hs1 hs2, new1 ++ new2, ?_, ?_⟩
  · rw [hb2, hb1, List.append_assoc]
  · intro q hq
    cases List.mem_append.mp hq with
    | inl hq => exact symP_mono hd2 hs2 (hn1 q hq)
    | inr hq => exact hn2 q hq

theorem bindInv_of_mono {st st2 : St} (h : Mono st st2) (hinv : bindInv st) :
    bindInv st2 := by
  obtain ⟨hd, hs, new, hb, hn⟩ := h
  intro q hq
  rw [hb] at hq
  cases List.mem_append.mp hq with
  | inl hq => exact symP_mono hd hs (hinv q hq)
  | inr hq => exact hn q hq

theorem mono_untouched {st st2 : St} (h1 : st2.declSym = st.declSym)
    (h2 : st2.symbols = st.symbols) (h3 : st2.boundDecls = st.boundDecls) :
    Mono st st2 := by
  refine ⟨?_, ?_, [], by rw [h3, List.append_nil], fun _ h => absurd h (List.not_mem_nil _)⟩
  · rw [h1]; exact dsLe_refl _
  · rw [h2]; exact symLe_refl _

/- ---- monad composition ---- -/

theorem monoM_pure {α : Type} (a : α) : MonoM (pure a : M α) := by
  intro st b st2 h
  rw [mPure_def] at h
  cases h
  exact mono_refl st

theorem monoM_bind {α β : Type} {x : M α} {f : α → M β}
    (hx : MonoM x) (hf : ∀ a, MonoM (f a)) : MonoM (x >>= f) := by
  intro st b st3 h
  rw [mBind_def] at h
  cases hx2 : x st with
  | ok a st2 =>
    rw [hx2] at h
    exact mono_trans (hx st a st2 hx2) (hf a st2 b st3 h)
  | fatal msg => rw [hx2] at h; cases h
  | timeout => rw [hx2] at h; cases h

theorem monoM_fatal {α : Type} (msg : String) : MonoM (fatalM msg : M α) := by
  intro st a st2 h
  cases h

theorem monoM_outOfFuel {α : Type} : MonoM (outOfFuel : M α) := by
  intro st a st2 h
  cases h

theorem monoM_getM : MonoM getM := by
  intro st a st2 h
  cases h
  exact mono_refl st

/- ---- primitive state writers ---- -/

theorem monoM_error (pos : Nat) (msg : String) : MonoM (error pos msg) := by
  intro st a st2 h
  cases h
  by_cases hc : (st.errors.any (fun e => e.fst == pos)) = true
  · exact mono_untouched (by simp [error, modifyM, hc]) (by simp [error, modifyM, hc])
      (by simp [error, modifyM, hc])
  · exact mono_untouched (by simp [error, modifyM, hc]) (by simp [error, modifyM, hc])
      (by simp [error, modifyM, hc])

theorem monoM_setParents (parent : Nat) (children : List (Option Nat)) :
    MonoM (setParents parent children) := by
  intro st a st2 h
  cases h
  exact mono_untouched rfl rfl rfl

/- ---- lookupN / upsertN ---- -/

theorem lookupN_upsertN_self {α : Type} (xs : List (Nat × α)) (k : Nat) (v : α) :
    lookupN (upsertN xs k v) k = some v := by
  induction xs with
  | nil => simp [upsertN, lookupN]
  | cons x rest ih =>
    by_cases hc : (x.1 == k) = true
    · cases x
      simp only [upsertN, hc, if_true]
      simp only [lookupN, hc, if_true]
    · cases x
      simp only [upsertN, hc, if_false]
      simp only [lookupN, hc, if_false]
      exact ih

theorem lookupN_upsertN_isSome {α : Type} (xs : List (Nat × α)) (k : Nat) (v : α)
    (p : Nat) (h : (lookupN xs p).isSome) : (lookupN (upsertN xs k v) p).isSome := by
  induction xs with
  | nil => simp [lookupN] at h
  | cons x rest ih =>
    cases x with
    | mk k2 v2 =>
      by_cases hc : (k2 == k) = true
      · simp only [upsertN, hc, if_true]
        by_cases hp : (k2 == p) = true
        · simp [lookupN, hp]
        · simp only [lookupN, hp, if_false] at h ⊢
          exact h
      · simp only [upsertN, hc, if_false]
        by_cases hp : (k2 == p) = true
        · simp [lookupN, hp]
        · simp only [lookupN, hp, if_false] at h ⊢
          exact ih h

/- ---- list get? helpers (in terms of get?) ---- -/

theorem symGetAppend (l₁ l₂ : List SymData) (n : Nat) (sym : SymData)
    (h : l₁.get? n = some sym) : (l₁ ++ l₂).get? n = some sym := by
  rw [List.get?_append (List.get?_eq_some.mp h).1]
  exact h

theorem symLe_append (xs ys : List SymData) : symLe xs (xs ++ ys) :=
  fun i sym h => ⟨sym, symGetAppend xs ys i sym h, fun _ hd => hd⟩

theorem symLe_set {xs : List SymData} {j : Nat} {sym sym2 : SymData}
    (h : xs.get? j = some sym) (hsub : ∀ d ∈ sym.declarations, d ∈ sym2.declarations) :
    symLe xs (xs.set j sym2) := by
  intro i symI hI
  by_cases hij : j = i
  · subst hij
    rw [h] at hI
    cases hI
    exact ⟨sym2, List.get?_set_eq_of_lt sym2 (List.get?_eq_some.mp h).1, hsub⟩
  · refine ⟨symI, ?_, fun _ hd => hd⟩
    rw [← hI, List.get?_eq_getElem?, List.get?_eq_getElem?]
    exact List.getElem?_set_ne hij

/- ---- allocParserSymbol ---- -/

theorem monoM_allocParserSymbol (d : Decl) (wm vd : Bool) (sk : ScopeKind) (wl : Bool) :
    MonoM (allocParserSymbol d.pos d wm vd sk wl) := by
  intro st a st2 h
  cases h
  refine ⟨?_, ?_, [(d, st.symbols.length)], rfl, ?_⟩
  · intro p hp
    exact lookupN_upsertN_isSome _ _ _ _ hp
  · exact symLe_append _ _
  · intro q hq
    rw [List.mem_singleton] at hq
    subst hq
    refine ⟨?_, ?_⟩
    · simp [allocParserSymbol, lookupN_upsertN_self]
    · refine ⟨_, List.get?_concat_length _ _, Or.inl ?_⟩
      exact List.mem_singleton.mpr rfl

/- ---- getDeclarationName shape ---- -/

theorem getDeclName_shape (d : Decl) (st : St) :
    ∃ name st2, getDeclarationName d st = .ok name st2 ∧
      st2.declSym = st.declSym ∧ st2.symbols = st.symbols ∧
      st2.boundDecls = st.boundDecls := by
  cases d <;>
    simp only [getDeclarationName, mPure_def, mBind_def, error, modifyM] <;>
    first
      | exact ⟨_, st, rfl, rfl, rfl, rfl⟩
      | (split <;> exact ⟨_, _, rfl, rfl, rfl, rfl⟩)

/- ---- setDeclSymbol shape ---- -/

theorem setDeclSymbol_run (d : Decl) (symId : Nat) (st : St) :
    setDeclSymbol d symId st = .ok ()
      { st with declSym := upsertN st.declSym d.pos symId,
                boundDecls := st.boundDecls ++ [(d, symId)] } := rfl

/- ---- declareSymbol ---- -/

theorem monoM_declareSymbol (container : TblRef) (d : Decl) :
    MonoM (declareSymbol container d (getMeaning d)) := by
  intro st a stF h
  obtain ⟨name, st1, hname, hds, hsy, hbd⟩ := getDeclName_shape d st
  have hmono1 : Mono st st1 := mono_untouched hds hsy hbd
  rw [declareSymbol] at h
  rw [mBind_def, hname] at h
  simp only [] at h
  have hget : getM st1 = .ok st1 st1 := rfl
  rw [mBind_def, hget] at h
  simp only [] at h
  refine mono_trans hmono1 ?_
  cases hrt : readTable st1 container with
  | none => rw [hrt] at h; cases h
  | some tbl =>
    rw [hrt] at h
    simp only [] at h
    cases hls : lookupStr tbl name with
    | some symId =>
      rw [hls] at h
      simp only [] at h
      cases hsome : st1.symbols.get? symId with
      | none =>
        rw [hsome] at h
        simp only [] at h
        cases h
      | some sym =>
        rw [hsome] at h
        simp only [] at h
        cases hfind : sym.declarations.find? (fun d2 => getMeaning d == getMeaning d2) with
        | some other =>
          rw [hfind] at h
          simp only [] at h
          rw [mBind_def] at h
          -- error then setDeclSymbol
          have hother_mem : other ∈ sym.declarations := List.mem_of_find?_eq_some hfind
          have hp0 := List.find?_some hfind
          have hp : (getMeaning d == getMeaning other) = true := hp0
          have hother_meaning : getMeaning other = getMeaning d := (eq_of_beq hp).symm
          by_cases hc : (st1.errors.any (fun e => e.fst == d.pos)) = true
          · have herr : error d.pos
                ("Cannot redeclare " ++ name ++ "; first declared at " ++ Nat.repr other.pos)
                st1 = .ok () st1 := by
              simp [error, modifyM, hc]
            rw [herr] at h
            simp only [] at h
            rw [setDeclSymbol_run] at h
            cases h
            refine ⟨fun p hp => lookupN_upsertN_isSome _ _ _ _ hp, symLe_refl _,
              [(d, symId)], rfl, ?_⟩
            intro q hq
            rw [List.mem_singleton] at hq
            subst hq
            refine ⟨by simp [lookupN_upsertN_self], sym, hsome, Or.inr ⟨other, hother_mem, hother_meaning⟩⟩
          · have herr : error d.pos
                ("Cannot redeclare " ++ name ++ "; first declared at " ++ Nat.repr other.pos)
                st1 = .ok () { st1 with errors := st1.errors ++ [(d.pos,
                  "Cannot redeclare " ++ name ++ "; first declared at " ++ Nat.repr other.pos)] } := by
              simp [error, modifyM, hc]
            rw [herr] at h
            simp only [] at h
            rw [setDeclSymbol_run] at h
            cases h
            refine ⟨fun p hp => lookupN_upsertN_isSome _ _ _ _ hp, symLe_refl _,
              [(d, symId)], rfl, ?_⟩
            intro q hq
            rw [List.mem_singleton] at hq
            subst hq
            refine ⟨by simp [lookupN_upsertN_self], sym, hsome, Or.inr ⟨other, hother_mem, hother_meaning⟩⟩
        | none =>
          rw [hfind] at h
          simp only [] at h
          rw [mBind_def] at h
          have hset : (setM (setSymbol st1 symId
              { sym with
                declarations := sym.declarations ++ [d],
                valueDeclaration :=
                  if sym.valueDeclaration.isNone && getMeaning d == Meaning.value
                  then some d else sym.valueDeclaration })) st1
              = .ok () (setSymbol st1 symId
              { sym with
                declarations := sym.declarations ++ [d],
                valueDeclaration :=
                  if sym.valueDeclaration.isNone && getMeaning d == Meaning.value
                  then some d else sym.valueDeclaration }) := rfl
          rw [hset] at h
          simp only [] at h
          rw [setDeclSymbol_run] at h
          cases h
          refine ⟨fun p hp => lookupN_upsertN_isSome _ _ _ _ hp,
            symLe_set hsome (fun x hx => List.mem_append_left _ hx),
            [(d, symId)], rfl, ?_⟩
          intro q hq
          rw [List.mem_singleton] at hq
          subst hq
          refine ⟨by simp [lookupN_upsertN_self], _,
            List.get?_set_eq_of_lt _ (List.get?_eq_some.mp hsome).1, Or.inl ?_⟩
          exact List.mem_append_right _ (List.mem_singleton.mpr rfl)
    | none =>
      rw [hls] at h
      simp only [] at h
      rw [mBind_def] at h
      cases container with
      | localsRef p =>
        have hwt : (setM (writeTable { st1 with symbols := st1.symbols ++ [{
              declarations := [d],
              valueDeclaration := if getMeaning d == Meaning.value then some d else none }] }
            (.localsRef p) (upsertStr tbl name st1.symbols.length))) st1
            = .ok () { st1 with
                symbols := st1.symbols ++ [{
                  declarations := [d],
                  valueDeclaration := if getMeaning d == Meaning.value then some d else none }],
                locals := upsertN st1.locals p (upsertStr tbl name st1.symbols.length) } := rfl
        rw [hwt] at h
        simp only [] at h
        rw [setDeclSymbol_run] at h
        cases h
        refine ⟨fun q hq => lookupN_upsertN_isSome _ _ _ _ hq, symLe_append _ _,
          [(d, st1.symbols.length)], rfl, ?_⟩
        intro q hq
        rw [List.mem_singleton] at hq
        subst hq
        refine ⟨by simp [lookupN_upsertN_self], _, List.get?_concat_length _ _, Or.inl ?_⟩
        exact List.mem_singleton.mpr rfl
      | membersRef ownerId =>
        -- readTable st1 (membersRef ownerId) = some tbl yields the owner symbol
        have howner : ∃ osym, st1.symbols.get? ownerId = some osym ∧ osym.members = some tbl := by
          simp only [readTable] at hrt
          cases hg : st1.symbols.get? ownerId with
          | none => rw [hg] at hrt; cases hrt
          | some osym => rw [hg] at hrt; exact ⟨osym, rfl, hrt⟩
        obtain ⟨osym, hosym, hmem⟩ := howner
        have hlt : ownerId < st1.symbols.length := (List.get?_eq_some.mp hosym).1
        have hne : ownerId ≠ st1.symbols.length := Nat.ne_of_lt hlt
        have hg2 : (st1.symbols ++ [({
              declarations := [d],
              valueDeclaration := if getMeaning d == Meaning.value then some d else none
              } : SymData)]).get? ownerId = some osym :=
          symGetAppend _ _ _ _ hosym
        have hwt : (setM (writeTable { st1 with symbols := st1.symbols ++ [{
              declarations := [d],
              valueDeclaration := if getMeaning d == Meaning.value then some d else none }] }
            (.membersRef ownerId) (upsertStr tbl name st1.symbols.length))) st1
            = .ok () { st1 with
                symbols := (st1.symbols ++ [({
                  declarations := [d],
                  valueDeclaration := if getMeaning d == Meaning.value then some d else none
                  } : SymData)]).set
                  ownerId { osym with members := some (upsertStr tbl name st1.symbols.length) } } := by
          simp only [setM, writeTable, List.get?_eq_getElem? ] at hg2 ⊢
          rw [hg2]
          rfl
        rw [hwt] at h
        simp only [] at h
        rw [setDeclSymbol_run] at h
        cases h
        refine ⟨fun q hq => lookupN_upsertN_isSome _ _ _ _ hq,
          symLe_trans (symLe_append _ _) (symLe_set hg2 (fun x hx => hx)),
          [(d, st1.symbols.length)], rfl, ?_⟩
        intro q hq
        rw [List.mem_singleton] at hq
        subst hq
        constructor
        · simp [lookupN_upsertN_self]
        have hgF : ((st1.symbols ++ [({
              declarations := [d],
              valueDeclaration := if getMeaning d == Meaning.value then some d else none
              } : SymData)]).set
                ownerId { osym with members := some (upsertStr tbl name st1.symbols.length) }).get?
                st1.symbols.length
            = some ({
              declarations := [d],
              valueDeclaration := if getMeaning d == Meaning.value then some d else none
              } : SymData) := by
          rw [List.get?_eq_getElem?, List.getElem?_set_ne hne, ← List.get?_eq_getElem?]
          exact List.get?_concat_length _ _
        exact ⟨_, hgF, Or.inl (List.mem_singleton.mpr rfl)⟩

/- ---- the parser symbol pre-creation pass preserves the invariant ---- -/

theorem parseInitMono : ∀ fuel : Nat,
    (∀ s, MonoM (parseInitStmt fuel s)) ∧
    (∀ ss, MonoM (parseInitStmts fuel ss)) ∧
    (∀ e, MonoM (parseInitExpr fuel e)) ∧
    (∀ es, MonoM (parseInitExprs fuel es)) ∧
    (∀ ps, MonoM (parseInitProps fuel ps)) ∧
    (∀ ps, MonoM (parseInitParams fuel ps)) ∧
    (∀ t, MonoM (parseInitTyNodeOpt fuel t)) ∧
    (∀ t, MonoM (parseInitTyNode fuel t)) ∧
    (∀ ps, MonoM (parseInitPropDs fuel ps)) ∧
    (∀ ts, MonoM (parseInitTyNodes fuel ts)) := by
  intro fuel
  induction fuel with
  | zero =>
    exact ⟨fun _ => monoM_outOfFuel, fun _ => monoM_outOfFuel, fun _ => monoM_outOfFuel,
      fun _ => monoM_outOfFuel, fun _ => monoM_outOfFuel, fun _ => monoM_outOfFuel,
      fun _ => monoM_outOfFuel, fun _ => monoM_outOfFuel, fun _ => monoM_outOfFuel,
      fun _ => monoM_outOfFuel⟩
  | succ fuel ih =>
    obtain ⟨ih1, ih2, ih3, ih4, ih5, ih6, ih7, ih8, ih9, ih10⟩ := ih
    refine ⟨?_, ?_, ?_, ?_, ?_, ?_, ?_, ?_, ?_, ?_⟩
    · intro s
      cases s with
      | var pos name typename initializer =>
        exact monoM_bind (ih7 _) fun _ => ih3 _
      | typeAlias pos name typename => exact ih8 _
      | exprStmt pos e => exact ih3 _
      | ret pos e => exact ih3 _
    · intro ss
      cases ss with
      | nil => exact monoM_pure _
      | cons s rest => exact monoM_bind (ih1 _) fun _ => ih2 _
    · intro e
      cases e with
      | ident pos text => exact monoM_pure _
      | num pos v => exact monoM_pure _
      | strE pos v => exact monoM_pure _
      | assign pos name value => exact ih3 _
      | objE pos properties =>
        exact monoM_bind (ih5 _) fun _ =>
          monoM_allocParserSymbol (.objD pos properties) true true .membersScope false
      | funcE pos name tps params typename body =>
        exact monoM_bind (ih6 _) fun _ => monoM_bind (ih7 _) fun _ =>
          monoM_bind (ih2 _) fun _ =>
            monoM_allocParserSymbol (.funcD pos name tps params typename body) false true
              .localsScope true
      | call pos expr targs args =>
        exact monoM_bind (ih3 _) fun _ => monoM_bind (ih10 _) fun _ => ih4 _
    · intro es
      cases es with
      | nil => exact monoM_pure _
      | cons e rest => exact monoM_bind (ih3 _) fun _ => ih4 _
    · intro ps
      cases ps with
      | nil => exact monoM_pure _
      | cons p rest => exact monoM_bind (ih3 _) fun _ => ih5 _
    · intro ps
      cases ps with
      | nil => exact monoM_pure _
      | cons p rest => exact monoM_bind (ih7 _) fun _ => ih6 _
    · intro t
      cases t with
      | none => exact monoM_pure _
      | some tn => exact ih8 _
    · intro t
      cases t with
      | identT pos text => exact monoM_pure _
      | olt pos properties =>
        exact monoM_bind (ih9 _) fun _ =>
          monoM_allocParserSymbol (.oltD pos properties) true false .membersScope false
      | signatureT pos tps params typename =>
        exact monoM_bind (ih6 _) fun _ => monoM_bind (ih8 _) fun _ =>
          monoM_allocParserSymbol (.signatureD pos tps params typename) false true
            .localsScope true
    · intro ps
      cases ps with
      | nil => exact monoM_pure _
      | cons p rest => exact monoM_bind (ih7 _) fun _ => ih9 _
    · intro ts
      cases ts with
      | nil => exact monoM_pure _
      | cons t rest => exact monoM_bind (ih8 _) fun _ => ih10 _

/- ---- the binder preserves the invariant ---- -/

theorem bindFamMono : ∀ fuel : Nat,
    (∀ locals s, MonoM (bindStatement fuel locals s)) ∧
    (∀ locals ss, MonoM (bindStmts fuel locals ss)) ∧
    (∀ e, MonoM (bindExpression fuel e)) ∧
    (∀ es, MonoM (bindExprs fuel es)) ∧
    (∀ objPos ps, MonoM (bindObjProps fuel objPos ps)) ∧
    (∀ ownerPos tps, MonoM (bindTypeParamDecls fuel ownerPos tps)) ∧
    (∀ ownerPos ps, MonoM (bindParamDecls fuel ownerPos ps)) ∧
    (∀ t, MonoM (bindType fuel t)) ∧
    (∀ ts, MonoM (bindTypeNodes fuel ts)) ∧
    (∀ oltPos ps, MonoM (bindOltProps fuel oltPos ps)) := by
  intro fuel
  induction fuel with
  | zero =>
    exact ⟨fun _ _ => monoM_outOfFuel, fun _ _ => monoM_outOfFuel, fun _ => monoM_outOfFuel,
      fun _ => monoM_outOfFuel, fun _ _ => monoM_outOfFuel, fun _ _ => monoM_outOfFuel,
      fun _ _ => monoM_outOfFuel, fun _ => monoM_outOfFuel, fun _ => monoM_outOfFuel,
      fun _ _ => monoM_outOfFuel⟩
  | succ fuel ih =>
    obtain ⟨ih1, ih2, ih3, ih4, ih5, ih6, ih7, ih8, ih9, ih10⟩ := ih
    refine ⟨?_, ?_, ?_, ?_, ?_, ?_, ?_, ?_, ?_, ?_⟩
    · intro locals s
      cases s with
      | var pos name typename initializer =>
        exact monoM_bind (monoM_setParents _ _) fun _ => monoM_bind (ih3 _) fun _ =>
          monoM_bind (ih8 _) fun _ =>
            monoM_declareSymbol locals (.varD pos name typename initializer)
      | typeAlias pos name typename =>
        exact monoM_bind (monoM_setParents _ _) fun _ => monoM_bind (ih8 _) fun _ =>
          monoM_declareSymbol locals (.typeAliasD pos name typename)
      | exprStmt pos e =>
        exact monoM_bind (monoM_setParents _ _) fun _ => ih3 _
      | ret pos e =>
        exact monoM_bind (monoM_setParents _ _) fun _ => ih3 _
    · intro locals ss
      cases ss with
      | nil => exact monoM_pure _
      | cons s rest => exact monoM_bind (ih1 _ _) fun _ => ih2 _ _
    · intro e
      cases e with
      | ident pos text => exact monoM_pure _
      | num pos v => exact monoM_pure _
      | strE pos v => exact monoM_pure _
      | assign pos name value =>
        exact monoM_bind (monoM_setParents _ _) fun _ => ih3 _
      | objE pos properties =>
        exact monoM_bind (monoM_setParents _ _) fun _ => ih5 _ _
      | funcE pos name tps params typename body =>
        exact monoM_bind (monoM_setParents _ _) fun _ => monoM_bind (ih8 _) fun _ =>
          monoM_bind (ih6 _ _) fun _ => monoM_bind (ih7 _ _) fun _ => ih2 _ _
      | call pos expr targs args =>
        exact monoM_bind (monoM_setParents _ _) fun _ => monoM_bind (ih3 _) fun _ =>
          monoM_bind (ih9 _) fun _ => ih4 _
    · intro es
      cases es with
      | nil => exact monoM_pure _
      | cons e rest => exact monoM_bind (ih3 _) fun _ => ih4 _
    · intro objPos ps
      cases ps with
      | nil => exact monoM_pure _
      | cons p rest =>
        refine monoM_bind (monoM_setParents _ _) fun _ =>
          monoM_bind (ih3 _) fun _ => monoM_bind monoM_getM fun st => ?_
        cases hl : lookupN st.declSym objPos with
        | none => exact monoM_fatal _
        | some symId =>
          exact monoM_bind (monoM_declareSymbol (.membersRef symId) (.propAssignD p))
            fun _ => ih5 _ _
    · intro ownerPos tps
      cases tps with
      | nil => exact monoM_pure _
      | cons tp rest =>
        exact monoM_bind (monoM_setParents _ _) fun _ =>
          monoM_bind (monoM_declareSymbol (.localsRef ownerPos) (.typeParamD tp))
            fun _ => ih6 _ _
    · intro ownerPos ps
      cases ps with
      | nil => exact monoM_pure _
      | cons p rest =>
        exact monoM_bind (monoM_setParents _ _) fun _ => monoM_bind (ih8 _) fun _ =>
          monoM_bind (monoM_declareSymbol (.localsRef ownerPos) (.paramD p))
            fun _ => ih7 _ _
    · intro t
      cases t with
      | none => exact monoM_pure _
      | some tn =>
        cases tn with
        | identT pos text => exact monoM_pure _
        | olt pos properties =>
          exact monoM_bind (monoM_setParents _ _) fun _ => ih10 _ _
        | signatureT pos tps params typename =>
          exact monoM_bind (monoM_setParents _ _) fun _ =>
            monoM_bind (ih6 _ _) fun _ => ih7 _ _
    · intro ts
      cases ts with
      | nil => exact monoM_pure _
      | cons t rest => exact monoM_bind (ih8 _) fun _ => ih9 _
    · intro oltPos ps
      cases ps with
      | nil => exact monoM_pure _
      | cons p rest =>
        refine monoM_bind (monoM_setParents _ _) fun _ =>
          monoM_bind (ih8 _) fun _ => monoM_bind monoM_getM fun st => ?_
        cases hl : lookupN st.declSym oltPos with
        | none => exact monoM_fatal _
        | some symId =>
          exact monoM_bind (monoM_declareSymbol (.membersRef symId) (.propDeclD p))
            fun _ => ih10 _ _

/- ---- bindModule preserves the invariant ---- -/

theorem monoM_bind_top (fuel : Nat) (m : ModuleNode) : MonoM (bind fuel m) := by
  cases fuel with
  | zero => exact monoM_outOfFuel
  | succ fuel =>
    exact monoM_bind (monoM_setParents _ _) fun _ => (bindFamMono fuel).2.1 _ _

theorem monoM_parseInitModule (fuel : Nat) (m : ModuleNode) :
    MonoM (parseInitModule fuel m) := by
  cases fuel with
  | zero => exact monoM_outOfFuel
  | succ fuel =>
    refine monoM_bind ?_ fun _ => (parseInitMono fuel).2.1 _
    intro st a st2 h
    cases h
    exact mono_untouched rfl rfl rfl

theorem monoM_bindModule (fuel : Nat) (m : ModuleNode) : MonoM (bindModule fuel m) :=
  monoM_bind (monoM_parseInitModule fuel m) fun _ => monoM_bind_top fuel m

theorem bindInv_initSt : bindInv initSt := by
  intro q hq
  cases hq

theorem c2step (k : Nat) : checkStatement (k+3) c2var c2St =
    (match checkStatement k c2var c2St with
     | .ok a st2 => Outcome.ok a st2
     | .fatal m => Outcome.fatal m
     | .timeout => Outcome.timeout) := by
  have hres : resolve c2St 3 "x" Meaning.value = some 0 := rfl
  have hget : c2St.symbols.get? 0 = some { declarations := [c2d], valueDeclaration := some c2d } := rfl
  rw [show k+3 = (k+2)+1 from rfl]
  simp only [checkStatement, c2var, mBind_def]
  rw [show k+2 = (k+1)+1 from rfl]
  simp only [checkExpression, mBind_def, getM, hres]
  simp only [getValueTypeOfSymbol, mBind_def, getM]
  simp only [hget, c2d]
  cases checkStatement k (Stmt.var 1 ⟨2, "x"⟩ none (.ident 3 "x")) c2St <;> rfl

theorem c2cycle : ∀ g, checkStatement g c2var c2St = Outcome.timeout := by
  intro g
  induction g using Nat.strong_induction_on with
  | _ g IH =>
    match g with
    | 0 => rfl
    | 1 => rfl
    | 2 => rfl
    | (k+3) =>
      rw [c2step k, IH k (by omega)]

/-- C1 (counterexample): in `var x = 1; var x = 2; type F = () => \x7b y: number \x7d`
the redeclared `var x = 2` ends bound to symbol 2 whose `declarations` list is
`[var x = 1]` only — it does not contain the redeclared node — and the
property declaration `y` inside the signature's return type never gets a
symbol at all, so the claim's "every declaration node d reachable from the
module" fails on both counts. -/
theorem c1_counterexample :
    ∃ st, bindModule 20 c1m initSt = .ok () st ∧
      lookupN st.declSym c1d2.pos = some 2 ∧
      (∃ sym, st.symbols.get? 2 = some sym ∧
        sym.declarations = [c1d1] ∧ c1d2 ∉ sym.declarations) ∧
      lookupN st.declSym 21 = none := by
  refine ⟨_, rfl, rfl, ⟨_, rfl, rfl, ?_⟩, rfl⟩
  intro h
  rw [List.mem_singleton] at h
  exact absurd (congrArg Decl.pos h) (by decide)

/-- C1 (amended): after `bind(module)` completes, every declaration that was
assigned a symbol (every entry of the ghost log of `declaration.symbol =
symbol` writes, which covers the parser's pre-created symbols and every
`declareSymbol` call the binder reaches) has a non-null `symbol`
back-reference, and the symbol it was assigned lists the declaration itself —
or, in the same-meaning redeclaration case, some other declaration of the
same meaning. -/
theorem c1_bound_symbol_invariant (fuel : Nat) (m : ModuleNode) (st2 : St)
    (h : bindModule fuel m initSt = .ok () st2) :
    ∀ q ∈ st2.boundDecls,
      (lookupN st2.declSym q.1.pos).isSome ∧
      ∃ sym, st2.symbols.get? q.2 = some sym ∧
        (q.1 ∈ sym.declarations ∨
          ∃ d2, d2 ∈ sym.declarations ∧ getMeaning d2 = getMeaning q.1) :=
  bindInv_of_mono (monoM_bindModule fuel m initSt () st2 h) bindInv_initSt

/-- C1 (witness): the amended invariant instantiated on the counterexample
module at fuel 20. -/
theorem c1_bound_symbol_invariant_witness :
    ∃ st, bindModule 20 c1m initSt = .ok () st ∧
      ∀ q ∈ st.boundDecls,
        (lookupN st.declSym q.1.pos).isSome ∧
        ∃ sym, st.symbols.get? q.2 = some sym ∧
          (q.1 ∈ sym.declarations ∨
            ∃ d2, d2 ∈ sym.declarations ∧ getMeaning d2 = getMeaning q.1) :=
  ⟨_, rfl, c1_bound_symbol_invariant 20 c1m _ rfl⟩

/-- C2: on the module `var x = x` the binder succeeds and leaves symbol `x`
with no cached value type, and the checker then times out at every fuel:
`getValueTypeOfSymbol` re-enters the computation for `x` through the
initializer without any in-progress detection, so the source diverges instead
of yielding `anyType` on reentry. -/
theorem c2_getValueTypeOfSymbol_diverges :
    bindModule 50 c2m initSt = .ok () c2St ∧
    ∀ fuel, check fuel c2m c2St = Outcome.timeout := by
  refine ⟨rfl, fun fuel => ?_⟩
  match fuel with
  | 0 => rfl
  | 1 => rfl
  | (g+2) =>
    have h := c2cycle g
    rw [show g+2 = (g+1)+1 from rfl]
    simp only [check, c2m, checkStmtsMap, mBind_def, h]

/-- C3: for Function types S and T (neither `anyType` nor `errorType`, and not
the same type object), `isAssignableTo(S, T)` computes exactly: rename T's
type parameters to S's (when both signatures have them), compare return types
covariantly, require S to have at most as many parameters as T, and compare
parameters contravariantly — the result is the conjunction of the three. -/
theorem c3_function_assignability (fuel : Nat) (sid tid : Nat) (ssig tsig : Sig) (st : St)
    (hne : otyIdEq (some (Ty.funcT sid ssig)) (some (Ty.funcT tid tsig)) = false)
    (hsa : otyIdEq (some (Ty.funcT sid ssig)) (some anyType) = false)
    (hta : otyIdEq (some (Ty.funcT tid tsig)) (some anyType) = false)
    (hse : otyIdEq (some (Ty.funcT sid ssig)) (some errorType) = false)
    (hte : otyIdEq (some (Ty.funcT tid tsig)) (some errorType) = false)
    (tsig2 : Sig) (st1 : St) (bret : Bool) (st2 : St) (bp : Bool) (st3 : St)
    (hrename : funcAssignRename fuel ssig tsig st = .ok tsig2 st1)
    (hret : isAssignableTo fuel ssig.returnType tsig2.returnType st1 = .ok bret st2)
    (hparams : funcAssignParams fuel ssig.parameters tsig2.parameters st2 = .ok bp st3) :
    ∃ st4, isAssignableTo (fuel+1) (some (Ty.funcT sid ssig)) (some (Ty.funcT tid tsig)) st =
      .ok (bret && decide (ssig.parameters.length ≤ tsig2.parameters.length) && bp) st4 := by
  cases bret with
  | false =>
    refine ⟨st2, ?_⟩
    simp only [isAssignableTo, hne, hsa, hta, hse, hte, Bool.or_false, Bool.false_or,
      isPrim, Bool.false_eq_true, if_false]
    rw [mBind_def, hrename]
    simp only []
    rw [mBind_def, hret]
    simp [mPure_def]
  | true =>
    by_cases hle : ssig.parameters.length ≤ tsig2.parameters.length
    · refine ⟨st3, ?_⟩
      simp only [isAssignableTo, hne, hsa, hta, hse, hte, Bool.or_false, Bool.false_or,
        isPrim, Bool.false_eq_true, if_false]
      rw [mBind_def, hrename]
      simp only []
      rw [mBind_def, hret]
      simp [hle, hparams, mPure_def]
    · refine ⟨st2, ?_⟩
      simp only [isAssignableTo, hne, hsa, hta, hse, hte, Bool.or_false, Bool.false_or,
        isPrim, Bool.false_eq_true, if_false]
      rw [mBind_def, hrename]
      simp only []
      rw [mBind_def, hret]
      simp [hle, mPure_def]

/-- C3 (witness): two distinct `() => number` Function types at fuel 6. -/
theorem c3_function_assignability_witness :
    ∃ st4, isAssignableTo 6 (some (Ty.funcT 5 c3s)) (some (Ty.funcT 6 c3t)) initSt =
      .ok (true && decide (c3s.parameters.length ≤ c3t.parameters.length) && true) st4 :=
  c3_function_assignability 5 5 6 c3s c3t initSt rfl rfl rfl rfl rfl c3t initSt true
    initSt true initSt rfl rfl rfl

/-- C4: when `declareSymbol` is handed a declaration whose name is already in
the table with an existing declaration of the same meaning, it records exactly
one diagnostic — at the new declaration's position, naming the first
same-meaning declaration's position — and leaves the symbol's declarations
and the table entry unchanged; only the declaration's `symbol` back-reference
is written. -/
theorem c4_redeclaration_diagnostic (st : St) (container : TblRef) (d : Decl) (m : Meaning)
    (name : String) (tbl : List (String × Nat)) (symId : Nat) (sym : SymData) (other : Decl)
    (hd : getDeclarationName d st = .ok name st)
    (hlook : readTable st container = some tbl)
    (htbl : lookupStr tbl name = some symId)
    (hsym : st.symbols.get? symId = some sym)
    (hfind : sym.declarations.find? (fun d2 => m == getMeaning d2) = some other)
    (hfresh : hasErrorAt st d.pos = false) :
    declareSymbol container d m st =
      .ok () { st with
        errors := st.errors ++ [(d.pos,
          "Cannot redeclare " ++ name ++ "; first declared at " ++ Nat.repr other.pos)],
        declSym := upsertN st.declSym d.pos symId,
        boundDecls := st.boundDecls ++ [(d, symId)] } := by
  have hfresh2 : (st.errors.any (fun e => e.fst == d.pos)) = false := hfresh
  have hsym2 : st.symbols[symId]? = some sym := by
    rw [← List.get?_eq_getElem?]; exact hsym
  simp [declareSymbol, mBind_def, hd, getM, hlook, htbl, hsym2, hfind, error,
    modifyM, hfresh2, setDeclSymbol]

/-- C4 (witness): redeclaring `x` against a table whose symbol already holds
the Value declaration `c4d1`. -/
theorem c4_redeclaration_diagnostic_witness :
    declareSymbol (.localsRef 0) c4d2 .value c4st =
      .ok () { c4st with
        errors := c4st.errors ++ [(c4d2.pos,
          "Cannot redeclare " ++ "x" ++ "; first declared at " ++ Nat.repr c4d1.pos)],
        declSym := upsertN c4st.declSym c4d2.pos 0,
        boundDecls := c4st.boundDecls ++ [(c4d2, 0)] } :=
  c4_redeclaration_diagnostic c4st (.localsRef 0) c4d2 .value "x" [("x", 0)] 0 c4sym c4d1
    rfl rfl rfl rfl rfl rfl

/-- C5: when the callee's checked type is a Function type and the resolved
(possibly instantiated) signature's parameter count differs from the
argument count, `checkCall` records the arity diagnostic at the call's
expression, still checks the zipped argument/parameter prefix, and returns
the signature's return type. -/
theorem c5_call_arity_diagnostic (fuel fid : Nat) (expression : Expr)
    (typeArguments : Option (List TyNode))
    (args : List Expr) (fsig sig : Sig) (argTypes : List OTy)
    (st st1 st2 st3 stE st4 : St)
    (hcallee : checkExpression fuel expression st = .ok (some (.funcT fid fsig)) st1)
    (hargs : checkExprs fuel args st1 = .ok argTypes st2)
    (hsig : checkCallResolveSignature fuel fsig expression typeArguments argTypes st2 = .ok sig st3)
    (harity : (sig.parameters.length != args.length) = true)
    (herr : error expression.pos ("Expected " ++ Nat.repr sig.parameters.length ++
      " arguments, but got " ++ Nat.repr args.length ++ ".") st3 = .ok () stE)
    (hloop : checkCallArgs fuel (zipArgs argTypes sig.parameters args) stE = .ok () st4) :
    checkCall (fuel+1) expression typeArguments args st = .ok sig.returnType st4 := by
  simp only [checkCall]
  rw [mBind_def, hcallee]
  simp only []
  rw [mBind_def, hargs]
  simp only []
  rw [mBind_def, hsig]
  simp only [harity, if_true]
  rw [mBind_def, herr]
  simp only []
  rw [mBind_def, hloop]
  simp [mPure_def]

/-- C5 (witness): `f` of type `(x: number) => number` called with zero
arguments — one arity diagnostic, return type `number`. -/
theorem c5_call_arity_diagnostic_witness :
    checkCall 11 (.ident 2 "f") none [] c5st = .ok c5sig.returnType c5stE :=
  c5_call_arity_diagnostic 10 11 (.ident 2 "f") none [] c5sig c5sig [] c5st c5st c5st
    c5st c5stE c5stE rfl rfl rfl rfl rfl rfl

/-- C6: `inferType` records an inference candidate only at a TypeVariable
target — Primitive and Object targets record nothing, a Function target
recurses pairwise into parameters and return types exactly when the source is
also a Function and otherwise records nothing — and `inferTypeArguments`
returns, for each type parameter, the first collected candidate. -/
theorem c6_inferTypeArguments_structure (fuel : Nat) (source : OTy) (infs : Infs) (st : St) :
    (∀ id, inferType (fuel+1) source (some (.primitive id)) infs st = .ok infs st) ∧
    (∀ id members, inferType (fuel+1) source (some (.objectT id members)) infs st = .ok infs st) ∧
    (∀ id name l, infsLookup infs (some (.typeVariable id name)) = some l →
      inferType (fuel+1) source (some (.typeVariable id name)) infs st =
        .ok (infsAppend infs (some (.typeVariable id name)) source) st) ∧
    (∀ id sig sid ssig, source = some (.funcT sid ssig) →
      inferType (fuel+1) source (some (.funcT id sig)) infs st =
        ((do
          let infs1 ← (match ssig.typeParameters, sig.typeParameters with
            | some stps, some ttps => inferFromSymbols fuel stps ttps infs
            | _, _ => pure infs : M Infs)
          let infs2 ← inferFromSymbols fuel ssig.parameters sig.parameters infs1
          inferType fuel ssig.returnType sig.returnType infs2) st)) ∧
    (∀ id sig pid, inferType (fuel+1) (some (.primitive pid)) (some (.funcT id sig)) infs st
      = .ok infs st) ∧
    (∀ id sig oid om, inferType (fuel+1) (some (.objectT oid om)) (some (.funcT id sig)) infs st
      = .ok infs st) ∧
    (∀ id sig vid vn, inferType (fuel+1) (some (.typeVariable vid vn)) (some (.funcT id sig))
      infs st = .ok infs st) ∧
    (∀ tps sig argTypes,
      inferTypeArguments (fuel+1) tps sig argTypes st =
        (inferLoop fuel sig.parameters argTypes (initialInferences tps) >>=
          fun infs2 => inferResults tps infs2) st) ∧
    (inferResults [] infs st = .ok [] st) ∧
    (∀ p ps l, infsLookup infs p = some l →
      inferResults (p :: ps) infs st =
        ((inferResults ps infs >>= fun rest =>
          pure ((match l with | [] => none | x :: _ => x) :: rest)) st)) := by
  refine ⟨fun id => rfl, fun id members => rfl, ?_, ?_, fun i s p => rfl,
    fun i s o om => rfl, fun i s v vn => rfl, fun tps sig ats => rfl, rfl, ?_⟩
  · intro id name l hl
    simp only [inferType, hl]
    rfl
  · intro id sig sid ssig hs
    subst hs
    rfl
  · intro p ps l hl
    simp only [inferResults, hl, mBind_def]

/-- C7: `checkBody` collects return types only from top-level Return
statements (Var, ExpressionStatement and TypeAlias contribute nothing and are
not descended into), diagnoses a Return whose type is neither identical nor
assignable to the declared type at that Return's position, records nothing
for an assignable one, and returns the first collected type — or `undefined`
when the body has no Return. -/
theorem c7_checkBody_returns (fuel : Nat) :
    (∀ body, returnStatements body =
      body.filter (fun s => match s with | .ret _ _ => true | _ => false)) ∧
    (∀ p e2 rest dt rt rts s1 s2 st st1 st2 st3 st4 st5 st6,
      checkStatement fuel (.ret p e2) st = .ok rt st1 →
      otyIdEq rt (some dt) = false →
      isAssignableTo fuel rt (some dt) st1 = .ok false st2 →
      typeToStringO fuel rt st2 = .ok s1 st3 →
      typeToStringO fuel (some dt) st3 = .ok s2 st4 →
      error p ("Returned type '" ++ s1 ++ "' does not match declared return type '" ++
        s2 ++ "'.") st4 = .ok () st5 →
      collectReturnTypes fuel rest (some dt) st5 = .ok rts st6 →
      collectReturnTypes (fuel+1) (.ret p e2 :: rest) (some dt) st = .ok (rt :: rts) st6) ∧
    (∀ p e2 rest dt rt rts st st1 st2 st3,
      checkStatement fuel (.ret p e2) st = .ok rt st1 →
      otyIdEq rt (some dt) = false →
      isAssignableTo fuel rt (some dt) st1 = .ok true st2 →
      collectReturnTypes fuel rest (some dt) st2 = .ok rts st3 →
      collectReturnTypes (fuel+1) (.ret p e2 :: rest) (some dt) st = .ok (rt :: rts) st3) ∧
    (∀ body dt types st st1 st2,
      checkStmts fuel body st = .ok () st1 →
      collectReturnTypes fuel (returnStatements body) dt st1 = .ok types st2 →
      checkBody (fuel+1) body dt st = .ok (match types with | [] => none | t :: _ => t) st2) := by
  refine ⟨?_, ?_, ?_, ?_⟩
  · intro body
    induction body with
    | nil => rfl
    | cons s rest ih =>
      cases s <;> simp [returnStatements, List.filter, ih]
  · intro p e2 rest dt rt rts s1 s2 st st1 st2 st3 st4 st5 st6
      hrt hneq hassign hs1 hs2 herr hrest
    simp only [collectReturnTypes]
    rw [mBind_def, hrt]
    simp only [hneq, Bool.false_eq_true, if_false]
    rw [mBind_def]
    rw [mBind_def, hassign]
    simp only [Bool.false_eq_true, if_false]
    rw [mBind_def, hs1]
    simp only []
    rw [mBind_def, hs2]
    simp only [Stmt.pos]
    rw [herr]
    simp only []
    rw [mBind_def, hrest]
    simp [mPure_def]
  · intro p e2 rest dt rt rts st st1 st2 st3 hrt hneq hassign hrest
    simp only [collectReturnTypes]
    rw [mBind_def, hrt]
    simp only [hneq, Bool.false_eq_true, if_false]
    rw [mBind_def]
    rw [mBind_def, hassign]
    simp only [if_true, mPure_def]
    rw [mBind_def, hrest]
    simp [mPure_def]
  · intro body dt types st st1 st2 hstmts hcollect
    simp only [checkBody]
    rw [mBind_def, hstmts]
    simp only []
    rw [mBind_def, hcollect]
    simp [mPure_def]

/-- C8: `isAssignableTo(T, T)` is true for every type T (same type object —
the identity fast path), and any type is assignable to and from `anyType` and
`errorType`; none of these change the state or consume recursion. -/
theorem c8_assignability_reflexive_any_error (fuel : Nat) (t u : Ty) (st : St) :
    isAssignableTo (fuel+1) (some t) (some t) st = .ok true st ∧
    isAssignableTo (fuel+1) (some u) (some anyType) st = .ok true st ∧
    isAssignableTo (fuel+1) (some anyType) (some u) st = .ok true st ∧
    isAssignableTo (fuel+1) (some u) (some errorType) st = .ok true st ∧
    isAssignableTo (fuel+1) (some errorType) (some u) st = .ok true st := by
  refine ⟨?_, ?_, ?_, ?_, ?_⟩ <;>
    · rw [isAssignableTo.eq_def]
      simp [otyIdEq, anyType, errorType, tyId, mPure_def]

/-- C9: `error(location, message)` appends the diagnostic only when no
diagnostic is already recorded at that position; a second error at the same
position — whatever its message — leaves the sink unchanged. -/
theorem c9_error_dedup (st : St) (pos : Nat) (m1 m2 : String)
    (h : hasErrorAt st pos = false) :
    error pos m1 st = .ok () { st with errors := st.errors ++ [(pos, m1)] } ∧
    error pos m2 { st with errors := st.errors ++ [(pos, m1)] } =
      .ok () { st with errors := st.errors ++ [(pos, m1)] } := by
  have h2 : (st.errors.any (fun e => e.fst == pos)) = false := h
  constructor
  · simp [error, modifyM, h2]
  · have h3 : (({ st with errors := st.errors ++ [(pos, m1)] } : St).errors.any
        (fun e => e.fst == pos)) = true := by
      simp [List.any_append]
    simp [error, modifyM, h3]

/-- C9 (witness): two errors at position 0 from the empty sink. -/
theorem c9_error_dedup_witness :
    error 0 "first" initSt = .ok () { initSt with errors := initSt.errors ++ [(0, "first")] } ∧
    error 0 "second" { initSt with errors := initSt.errors ++ [(0, "first")] } =
      .ok () { initSt with errors := initSt.errors ++ [(0, "first")] } :=
  c9_error_dedup initSt 0 "first" "second" rfl

/-- C10: calling `f : <T>(x: number) => T` as `f(1)` — `T` occurs at no
TypeVariable position of a checked parameter type, so `inferTypeArguments`
returns `[none]` (an absent type argument, JavaScript `undefined`), and
`checkCall` instantiates the signature with that absent type: the call's
checked type is `undefined`, not `anyType`. -/
theorem c10_absent_type_argument_propagates :
    inferTypeArguments 20 [some c10T] c10sig [some numberType] c10st = .ok [none] c10st ∧
    (∃ st2, checkCall 20 (.ident 2 "f") none [.num 3 1] c10st = .ok none st2) :=
  ⟨rfl, ⟨_, rfl⟩⟩
